import Mathlib

/-!
Verification development for `catkit/flow/fwase.py`.

The module under study drives an external atomistic-simulation calculator:
`get_potential_energy` (single calculation), `catflow_relaxation` (relaxation
plus database persistence) and `run_mlneb` (machine-learning NEB search).
We shallowly embed the module as computable Lean functions over an explicit
state (a heap of Python dictionaries plus an event trace).  All external
collaborators (ase, decaf, ckutil, catlearn, the database layer, the
`str_to_class` dispatch and the `atoms_to_encode` encoder) are parameters of
the embedding, collected in an `Oracle` structure: the embedding fixes only
what the source file itself does.
-/

namespace Fwase

/-- A primitive Python value stored in a metadata dictionary. -/
inductive Prim where
  | str (s : String)
  | int (n : Int)
  | rat (q : Rat)
  | bool (b : Bool)
deriving DecidableEq, Repr

/-- A value held in a Python dict: a primitive, or a reference to another
dict living on the heap (Python dicts are mutable reference objects). -/
inductive Value where
  | prim (p : Prim)
  | ref (r : Nat)
deriving DecidableEq, Repr

/-- A Python dict, as stored in one heap cell: association list preserving
insertion order. -/
abbrev Dict := List (String × Value)

/-- Lookup in a dict (`d[k]` / `d.get(k)`). -/
def dictGet (d : Dict) (k : String) : Option Value :=
  (d.find? (fun kv => kv.1 = k)).map (fun kv => kv.2)

/-- Python `d[k] = v`: replace the value in place if the key exists,
otherwise append the new binding at the end. -/
def dictSet (d : Dict) (k : String) (v : Value) : Dict :=
  if d.any (fun kv => kv.1 = k) then
    d.map (fun kv => if kv.1 = k then (k, v) else kv)
  else
    d ++ [(k, v)]

/-- Removal part of Python `d.pop(k)` (the returned value is read with
`dictGet` first). -/
def dictPop (d : Dict) (k : String) : Dict :=
  d.filter (fun kv => ¬ kv.1 = k)

/-- A dict of primitives only: the shape of the nested dictionaries
(`calculator_parameters`) that the module stores inside `atoms.info`. -/
abbrev FlatDict := List (String × Prim)

/-- A pure (heap-free) metadata value: a primitive or a nested flat dict.
This is the shape external collaborators exchange with the embedding. -/
inductive PValue where
  | prim (p : Prim)
  | dict (d : FlatDict)
deriving DecidableEq, Repr

/-- A pure (heap-free) metadata mapping, as read from a trajectory file. -/
abbrev PDict := List (String × PValue)

/-- A 3-vector of rationals (atomic positions and cell rows; we model the
reals the files carry as rationals, which is faithful for every concrete
finite-precision input). -/
abbrev Vec3 := Rat × Rat × Rat

/-- A pure atomic structure, as an external collaborator produces or
consumes it: positions, cell, periodic-boundary flags, constraints, an
optional stored energy and the free-form `info` metadata mapping. -/
structure PAtoms where
  positions : List Vec3
  cell : List Vec3
  pbc : List Bool
  constraints : List Nat
  energy : Option Rat
  info : PDict
deriving DecidableEq, Repr

/-- A heap-resident atomic structure: like `PAtoms` but its mutable `info`
dict is a reference into the heap (Python's `atoms.info` is a shared
mutable dict). -/
structure Atoms where
  positions : List Vec3
  cell : List Vec3
  pbc : List Bool
  constraints : List Nat
  energy : Option Rat
  infoRef : Nat
deriving DecidableEq, Repr

/-- The heap of Python dict objects: cell contents by address, plus the
next fresh address. -/
structure Heap where
  cells : Nat → Option Dict
  next : Nat

/-- Allocate a fresh dict cell. -/
def Heap.alloc (h : Heap) (d : Dict) : Heap × Nat :=
  ({ cells := fun n => if n = h.next then some d else h.cells n,
     next := h.next + 1 }, h.next)

/-- Overwrite the dict stored at an existing address (in-place mutation of
a Python dict). -/
def Heap.set (h : Heap) (r : Nat) (d : Dict) : Heap :=
  { h with cells := fun n => if n = r then some d else h.cells n }

/-- The empty heap. -/
def Heap.empty : Heap := { cells := fun _ => none, next := 0 }

/-- Branch conditions the module's functions test, used to tag the trace. -/
inductive BranchTag where
  | atomsIsNone
  | parametersIsNone
  | calculatorNameIsNone
  | pbcAll
  | isinstanceEspresso
deriving DecidableEq, Repr

/-- Observable events of one run: file reads, calculator instantiation and
invocation, metadata patching, database open/write/close, encoding, and
every executed conditional test together with the way it went. -/
inductive Event where
  | readOne (path : String)
  | readMany (path : String)
  | instCalc (cls : String) (calcFile : Option String) (params : Dict)
  | runCalc
  | nebRunEv (fmax : Rat) (traj : String)
  | patchMeta
  | dbOpen
  | dbWrite
  | dbClose
  | encodeEv
  | branch (t : BranchTag) (taken : Bool)
deriving DecidableEq, Repr

/-- Python exceptions the module can propagate. -/
inductive Err where
  | fileNotFound (p : String)
  | keyError (k : String)
  | nameError (n : String)
  | typeError (s : String)
  | indexError
  | calcError (s : String)
  | dbError (s : String)
deriving DecidableEq, Repr

/-- Decidable equality for external-call results (used only to evaluate
the embedding on concrete fixtures). -/
instance {ε α : Type} [DecidableEq ε] [DecidableEq α] : DecidableEq (Except ε α) :=
  fun a b =>
    match a, b with
    | Except.ok x, Except.ok y =>
        if h : x = y then isTrue (by rw [h]) else isFalse (by simp [h])
    | Except.error x, Except.error y =>
        if h : x = y then isTrue (by rw [h]) else isFalse (by simp [h])
    | Except.ok _, Except.error _ => isFalse (by simp)
    | Except.error _, Except.ok _ => isFalse (by simp)

/-- The run state: the dict heap and the event trace so far. -/
structure St where
  heap : Heap
  trace : List Event

/-- The effect monad of the embedding: state passing plus exceptions.  On
an exception the state (heap mutations, trace) performed so far is kept,
as in Python. -/
def M (α : Type) : Type := St → Except Err α × St

/-- Monadic return. -/
def M.pure (a : α) : M α := fun s => (.ok a, s)

/-- Monadic bind: stop at the first exception, keep the state. -/
def M.bind (m : M α) (f : α → M β) : M β := fun s =>
  match (m s).1 with
  | .ok a => f a (m s).2
  | .error e => (.error e, (m s).2)

instance : Monad M where
  pure := M.pure
  bind := M.bind

/-- Append one event to the trace. -/
def emit (e : Event) : M Unit := fun s =>
  (.ok (), { s with trace := s.trace ++ [e] })

/-- Lift an external call's result (it may raise). -/
def liftE (r : Except Err α) : M α := fun s => (r, s)

/-- Raise a Python exception. -/
def throwE (e : Err) : M α := fun s => (.error e, s)

/-- Run a pure heap transformation. -/
def heapOp (f : Heap → Heap × α) : M α := fun s =>
  (.ok (f s.heap).2, { s with heap := (f s.heap).1 })

/-- Read the current heap. -/
def getHeap : M Heap := fun s => (.ok s.heap, s)

/-- Read the dict stored at an address (never fails on the states the
module builds; a dangling address is reported as a TypeError). -/
def readCell (r : Nat) : M Dict := fun s =>
  ((match s.heap.cells r with
    | some d => Except.ok d
    | none => Except.error (Err.typeError "dangling dict reference")), s)

/-- Overwrite the dict stored at an address. -/
def setCell (r : Nat) (d : Dict) : M Unit := fun s =>
  (.ok (), { s with heap := s.heap.set r d })

/-- Allocate a heap dict for one pure metadata value (a nested flat dict
becomes a fresh cell holding primitives). -/
def allocPValue (h : Heap) (v : PValue) : Heap × Value :=
  match v with
  | .prim p => (h, .prim p)
  | .dict d =>
      let hr := h.alloc (d.map (fun kp => (kp.1, Value.prim kp.2)))
      (hr.1, .ref hr.2)

/-- Allocate the cells for a pure metadata mapping, left to right. -/
def allocPDict (h : Heap) (d : PDict) : Heap × Dict :=
  match d with
  | [] => (h, [])
  | kv :: rest =>
      let hv := allocPValue h kv.2
      let hrest := allocPDict hv.1 rest
      (hrest.1, (kv.1, hv.2) :: hrest.2)

/-- Allocate an `info` mapping on the heap: nested dicts first, then the
mapping's own cell; returns its address. -/
def allocInfo (h : Heap) (d : PDict) : Heap × Nat :=
  let hd := allocPDict h d
  hd.1.alloc hd.2

/-- Bring a pure structure onto the heap (fresh `info` dict). -/
def allocAtoms (h : Heap) (pa : PAtoms) : Heap × Atoms :=
  let hr := allocInfo h pa.info
  (hr.1,
   { positions := pa.positions, cell := pa.cell, pbc := pa.pbc,
     constraints := pa.constraints, energy := pa.energy, infoRef := hr.2 })

/-- Bring a whole trajectory onto the heap, image by image. -/
def allocImages (h : Heap) (l : List PAtoms) : Heap × List Atoms :=
  match l with
  | [] => (h, [])
  | pa :: rest =>
      let ha := allocAtoms h pa
      let hrest := allocImages ha.1 rest
      (hrest.1, ha.2 :: hrest.2)

/-- Read one dict value back into pure form (one level of nesting, which
is the only shape the module ever builds). -/
def resolveValue (h : Heap) (v : Value) : PValue :=
  match v with
  | .prim p => .prim p
  | .ref r =>
      .dict (((h.cells r).getD []).filterMap (fun kv =>
        match kv.2 with
        | .prim p => some (kv.1, p)
        | .ref _ => none))

/-- Read a dict back into pure form. -/
def resolveDict (h : Heap) (d : Dict) : PDict :=
  d.map (fun kv => (kv.1, resolveValue h kv.2))

/-- Read an `info` mapping back into pure form from its address. -/
def resolveInfo (h : Heap) (r : Nat) : PDict :=
  resolveDict h ((h.cells r).getD [])

/-- Read a heap structure back into pure form. -/
def resolveAtoms (h : Heap) (a : Atoms) : PAtoms :=
  { positions := a.positions, cell := a.cell, pbc := a.pbc,
    constraints := a.constraints, energy := a.energy,
    info := resolveInfo h a.infoRef }

/-- What an ASE-style calculator invocation produces: updated positions
and a total energy.  (An ASE `get_potential_energy` call updates the
structure's positions and stored energy in place; it does not touch the
constraints, the periodic flags, the cell or the `info` mapping.) -/
structure CalcRes where
  positions : List Vec3
  energy : Rat
deriving DecidableEq, Repr

/-- A calculator instance as the module builds one: resolved class,
optional `calc_file` keyword, and the keyword parameters it was given. -/
structure Calc where
  cls : String
  calcFile : Option String
  params : Dict
deriving DecidableEq, Repr

/-- Apply a calculator result to the in-memory structure. -/
def applyCalc (a : Atoms) (r : CalcRes) : Atoms :=
  { a with positions := r.positions, energy := some r.energy }

/-- The body of the patch loop `image.constraints = atoms.constraints;
image._pbc = atoms.pbc` applied to one image. -/
def patchImage (atoms : Atoms) (img : Atoms) : Atoms :=
  { img with constraints := atoms.constraints, pbc := atoms.pbc }

/-- The external collaborators of the module, as unconstrained parameters:
structure-file I/O (`ase.io.read`, `decaf.io.read`), the availability of
the optional `decaf` and `ckutil` imports (the module-level try/except
swallows their ImportError, so a missing dependency surfaces later as a
NameError at the point of use), dynamic class dispatch (`utils.str_to_class`),
the isinstance test against `decaf.Espresso`, the calculator invocation,
`ckutil.aflow.get_prototype_tag`, the catlearn MLNEB constructor and run,
the database update and the trajectory encoder `fwio.atoms_to_encode`. -/
structure Oracle where
  readFile : String → Except Err PAtoms
  readTraj : String → Except Err (List PAtoms)
  decafReadTraj : String → Except Err (List PAtoms)
  decafAvailable : Bool
  ckutilAvailable : Bool
  strToClass : String → Except Err String
  isEspresso : String → Bool
  calcRun : Calc → Atoms → Except Err CalcRes
  prototype : Atoms → Rat → Except Err (String × PAtoms)
  nebInit : String → String → PDict → Nat → String → Bool → Except Err Unit
  nebRun : Rat → String → Except Err Unit
  dbUpdate : List PAtoms → Except Err Unit
  encode : List PAtoms → String

/-- Append one event to a state. -/
def addEvent (s : St) (e : Event) : St := { s with trace := s.trace ++ [e] }

/-- Lines 70-71, `if atoms is None: atoms = ase.io.read('input.traj')`:
take the argument when given, otherwise read and allocate the default
input file. -/
def defaultAtoms (ext : Oracle) (atoms? : Option Atoms) : M Atoms := fun s =>
  match atoms? with
  | some a => (Except.ok a, s)
  | none =>
      let s1 := addEvent s (Event.readOne "input.traj")
      match ext.readFile "input.traj" with
      | Except.error e => (Except.error e, s1)
      | Except.ok pa =>
          let al := allocAtoms s1.heap pa
          (Except.ok al.2, { s1 with heap := al.1 })

/-- `atoms.info['calculator_parameters']` used as a keyword dict (lines 36
and 73): KeyError when the key is absent; the value must be a dict
reference. -/
def getParamsRef (infoRef : Nat) : M Nat := fun s =>
  ((match s.heap.cells infoRef with
    | none => Except.error (Err.typeError "dangling dict reference")
    | some info =>
        match dictGet info "calculator_parameters" with
        | none => Except.error (Err.keyError "calculator_parameters")
        | some (Value.prim _) => Except.error (Err.typeError "calculator_parameters")
        | some (Value.ref p) => Except.ok p), s)

/-- Lines 72-73, `if parameters is None: parameters =
atoms.info['calculator_parameters']`. -/
def defaultParams (infoRef : Nat) (parameters? : Option Nat) : M Nat := fun s =>
  match parameters? with
  | some r => (Except.ok r, s)
  | none => getParamsRef infoRef s

/-- Lines 74-75, `if calculator_name is None: calculator_name =
parameters.pop('calculator_name')`: the pop removes the key from the
shared dict in place (KeyError when it is absent), and the popped value
must be a string for `str_to_class` to resolve. -/
def defaultCalculatorName (pref : Nat) (calculator_name? : Option String) :
    M String := fun s =>
  match calculator_name? with
  | some nm => (Except.ok nm, s)
  | none =>
      match s.heap.cells pref with
      | none => (Except.error (Err.typeError "dangling dict reference"), s)
      | some d =>
          match dictGet d "calculator_name" with
          | none => (Except.error (Err.keyError "calculator_name"), s)
          | some v =>
              let s1 := { s with heap := s.heap.set pref (dictPop d "calculator_name") }
              match v with
              | Value.prim (Prim.str nm) => (Except.ok nm, s1)
              | _ => (Except.error (Err.typeError "calculator_name"), s1)

/-- Use of a module imported inside the module-level try/except (decaf,
ckutil): the swallowed ImportError surfaces as a NameError at the point of
use when the import failed. -/
def requireModule (available : Bool) (name : String) : M Unit := fun s =>
  ((match available with
    | true => Except.ok ()
    | false => Except.error (Err.nameError name)), s)

/-- The literal tolerance `tol=1e-2` of the `get_prototype_tag` call
(line 87). -/
def protoTol : Rat := 1 / 100

/-- The literal force threshold `fmax=0.05` of the `neb_catlearn.run` call
(line 157). -/
def mlnebFmax : Rat := 1 / 20

/-- Lines 85-90: when the structure is periodic in all three directions,
resymmetrize it with `ckutil.aflow.get_prototype_tag(calc.atoms, tol=1e-2)`
(rebinding the local `atoms`; `calc.atoms` is the same object as the
current `atoms`), switch the shared parameters dict to an `scf`
calculation and run a freshly instantiated calculator on the
resymmetrized structure; otherwise leave calculator and structure
unchanged.  Returns the calculator and the structure the rest of the
function uses. -/
def maybeResymmetrize (ext : Oracle) (cls : String) (pref : Nat)
    (calc0 : Calc) (atoms : Atoms) : M (Calc × Atoms) := fun s =>
  if atoms.pbc.all id then
    match ext.ckutilAvailable with
    | false => (Except.error (Err.nameError "ckutil"), s)
    | true =>
        -- tag, atoms = ckutil.aflow.get_prototype_tag(calc.atoms, tol=1e-2)
        match ext.prototype atoms protoTol with
        | Except.error e => (Except.error e, s)
        | Except.ok pr =>
            let al := allocAtoms s.heap pr.2
            let s1 := { s with heap := al.1 }
            -- parameters['calculation'] = 'scf'
            match s1.heap.cells pref with
            | none => (Except.error (Err.typeError "dangling dict reference"), s1)
            | some d =>
                let d2 := dictSet d "calculation" (Value.prim (Prim.str "scf"))
                let s2 := { s1 with heap := s1.heap.set pref d2 }
                -- calc = calculator(atoms, calc_file='pw1.pwi', **parameters)
                match s2.heap.cells pref with
                | none => (Except.error (Err.typeError "dangling dict reference"), s2)
                | some d1 =>
                    let calc1 : Calc := Calc.mk cls (some "pw1.pwi") d1
                    let s3 := addEvent s2 (Event.instCalc cls (some "pw1.pwi") d1)
                    -- atoms.get_potential_energy()
                    let s4 := addEvent s3 Event.runCalc
                    match ext.calcRun calc1 al.2 with
                    | Except.error e => (Except.error e, s4)
                    | Except.ok res1 => (Except.ok (calc1, applyCalc al.2 res1), s4)
  else (Except.ok (calc0, atoms), s)

/-- Lines 95 and 100, `images[0].info = data`: replace the first image's
info reference with the `data` copy; IndexError on an empty trajectory. -/
def setFirstInfo (dataRef : Nat) (imgs : List Atoms) : M (List Atoms) := fun s =>
  ((match imgs with
    | [] => Except.error Err.indexError
    | i0 :: rest => Except.ok ({ i0 with infoRef := dataRef } :: rest)), s)

/-- Lines 109-110, the body of `with db.Connect() as dbflow:
dbflow.update_bulk_entry(images)`: one write inside the scope; the
context manager closes the connection also when the write raises, and the
exception propagates. -/
def dbWriteScoped (r : Except Err Unit) : M Unit := fun s =>
  match r with
  | Except.ok _ =>
      (Except.ok (), { s with trace := s.trace ++ [Event.dbWrite, Event.dbClose] })
  | Except.error e => (Except.error e, { s with trace := s.trace ++ [Event.dbClose] })

/-- Line 155, `fmax = atoms.info['fmax']`: KeyError when the key is
absent. -/
def getFmax (infoRef : Nat) : M Value := fun s =>
  ((match s.heap.cells infoRef with
    | none => Except.error (Err.typeError "dangling dict reference")
    | some info =>
        match dictGet info "fmax" with
        | none => Except.error (Err.keyError "fmax")
        | some v => Except.ok v), s)

/-- Embedding of `get_potential_energy` (src/catkit/flow/fwase.py lines
13-52): read the input structure, resolve and instantiate the calculator
with the keyword parameters stored in `atoms.info['calculator_parameters']`,
run it, read the completed trajectory from the log (`decaf.io.read` when the
calculator is a `decaf.Espresso`, else `ase.io.read`), copy the input
structure's constraints and pbc onto every image, and encode the result.
Returns the encoded string together with the image list it encodes. -/
def get_potential_energy (ext : Oracle) (calculator : String)
    (in_file : String := "input.traj") (out_file : String := "pw.pwo") :
    M (String × List Atoms) := do
  -- atoms = ase.io.read(in_file)
  emit (Event.readOne in_file)
  let pa ← liftE (ext.readFile in_file)
  let atoms ← heapOp (fun h => allocAtoms h pa)
  -- calculator = utils.str_to_class(calculator)
  let cls ← liftE (ext.strToClass calculator)
  -- calc = calculator(atoms, **atoms.info['calculator_parameters'])
  let pref ← getParamsRef atoms.infoRef
  let params ← readCell pref
  let calc0 : Calc := Calc.mk cls none params
  emit (Event.instCalc cls none params)
  -- atoms.get_potential_energy()
  emit Event.runCalc
  let res ← liftE (ext.calcRun calc0 atoms)
  let atoms := applyCalc atoms res
  -- if isinstance(calc, decaf.Espresso): (NameError when decaf never
  -- imported); both arms read out_file as a whole trajectory, with
  -- decaf.io.read in the decaf.Espresso case and ase.io.read otherwise
  requireModule ext.decafAvailable "decaf"
  emit (Event.branch BranchTag.isinstanceEspresso (ext.isEspresso calc0.cls))
  emit (Event.readMany out_file)
  let pimages ← liftE (if ext.isEspresso calc0.cls then ext.decafReadTraj out_file
    else ext.readTraj out_file)
  let images ← heapOp (fun h => allocImages h pimages)
  -- for image in images: image.constraints = atoms.constraints; image._pbc = atoms.pbc
  emit Event.patchMeta
  let images := images.map (patchImage atoms)
  -- return fwio.atoms_to_encode(images)
  emit Event.encodeEv
  let h ← getHeap
  M.pure (ext.encode (images.map (resolveAtoms h)), images)

/-- Embedding of `catflow_relaxation` (src/catkit/flow/fwase.py lines
55-112): default the structure from `input.traj`, the parameters from
`atoms.info['calculator_parameters']` and the calculator name from an
in-place `parameters.pop('calculator_name')`; snapshot `data =
atoms.info.copy()`; instantiate and run the calculator; when the structure
is fully periodic, resymmetrize it with `ckutil.aflow.get_prototype_tag`
(rebinding the local `atoms`), switch the shared parameters dict to an
`scf` calculation and run a second calculator; read the trajectory from
`pw0.pwo`, overwrite the first image's `info` with `data`, append the
resymmetrized structure when fully periodic, patch constraints and pbc
from the current `atoms` onto every image, write the images to the
database inside a `with db.Connect()` block, and encode them.  The
`atoms` argument is a heap-resident structure of the caller and the
`parameters` argument is the address of a caller-owned dict, so mutations
are observable in the final state. -/
def catflow_relaxation (ext : Oracle) (atoms? : Option Atoms := none)
    (calculator_name? : Option String := none) (parameters? : Option Nat := none) :
    M (String × List Atoms) := do
  -- if atoms is None: atoms = ase.io.read('input.traj')
  emit (Event.branch BranchTag.atomsIsNone atoms?.isNone)
  let atoms ← defaultAtoms ext atoms?
  -- if parameters is None: parameters = atoms.info['calculator_parameters']
  emit (Event.branch BranchTag.parametersIsNone parameters?.isNone)
  let pref ← defaultParams atoms.infoRef parameters?
  -- if calculator_name is None: calculator_name = parameters.pop('calculator_name')
  emit (Event.branch BranchTag.calculatorNameIsNone calculator_name?.isNone)
  let calculator_name ← defaultCalculatorName pref calculator_name?
  -- data = atoms.info.copy()  (a shallow copy: nested dict refs stay shared)
  let infoD ← readCell atoms.infoRef
  let dataRef ← heapOp (fun h => h.alloc infoD)
  -- calculator = utils.str_to_class(calculator_name)
  let cls ← liftE (ext.strToClass calculator_name)
  -- calc = calculator(atoms, calc_file='pw0.pwi', **parameters)
  let params0 ← readCell pref
  let calc0 : Calc := Calc.mk cls (some "pw0.pwi") params0
  emit (Event.instCalc cls (some "pw0.pwi") params0)
  -- atoms.get_potential_energy()
  emit Event.runCalc
  let res ← liftE (ext.calcRun calc0 atoms)
  let atoms := applyCalc atoms res
  -- if np.all(atoms.pbc): (resymmetrize and run an scf calculation;
  -- rebinds the local atoms and calc)
  emit (Event.branch BranchTag.pbcAll (atoms.pbc.all id))
  let ca ← maybeResymmetrize ext cls pref calc0 atoms
  let atoms := ca.2
  -- if isinstance(calc, decaf.Espresso): (NameError when decaf never
  -- imported); both arms read 'pw0.pwo' as a whole trajectory
  requireModule ext.decafAvailable "decaf"
  emit (Event.branch BranchTag.isinstanceEspresso (ext.isEspresso ca.1.cls))
  emit (Event.readMany "pw0.pwo")
  let pimgs ← liftE (if ext.isEspresso ca.1.cls then ext.decafReadTraj "pw0.pwo"
    else ext.readTraj "pw0.pwo")
  let imgs0 ← heapOp (fun h => allocImages h pimgs)
  -- images[0].info = data
  let imgs1 ← setFirstInfo dataRef imgs0
  -- if np.all(atoms.pbc): images += [atoms]
  emit (Event.branch BranchTag.pbcAll (atoms.pbc.all id))
  let images0 := if atoms.pbc.all id then imgs1 ++ [atoms] else imgs1
  -- for image in images: image.constraints = atoms.constraints; image._pbc = atoms.pbc
  emit Event.patchMeta
  let images := images0.map (patchImage atoms)
  -- with db.Connect() as dbflow: dbflow.update_bulk_entry(images)
  emit Event.dbOpen
  let hh ← getHeap
  dbWriteScoped (ext.dbUpdate (images.map (resolveAtoms hh)))
  -- return fwio.atoms_to_encode(images)
  emit Event.encodeEv
  let h2 ← getHeap
  M.pure (ext.encode (images.map (resolveAtoms h2)), images)

/-- Embedding of `run_mlneb` (src/catkit/flow/fwase.py lines 115-174):
read the starting structure, resolve and instantiate the catlearn MLNEB
calculator (handing it `atoms.info` as `ase_calc`), read
`atoms.info['fmax']` into a local, run the NEB with the literal threshold
`0.05` writing `out_file`, read the resulting trajectory with
`decaf.io.read` (the isinstance dispatch of the other functions is
commented out in the source), patch constraints and pbc from the input
structure onto every image, and encode the result. -/
def run_mlneb (ext : Oracle)
    (start_file : String := "input.traj") (end_file : String := "final.traj")
    (out_file : String := "ML-NEB.traj") (n_images : Nat := 11)
    (interpolation : String := "idpp") (restart : Bool := false) :
    M (String × List Atoms) := do
  -- atoms = ase.io.read(start_file)
  emit (Event.readOne start_file)
  let pa ← liftE (ext.readFile start_file)
  let atoms ← heapOp (fun h => allocAtoms h pa)
  -- calculator = utils.str_to_class('catlearn.optimize.mlneb.MLNEB')
  let cls ← liftE (ext.strToClass "catlearn.optimize.mlneb.MLNEB")
  -- neb_catlearn = calculator(start=start_file, end=end_file,
  --   ase_calc=atoms.info, n_images=n_images, interpolation=interpolation,
  --   restart=restart)
  let h0 ← getHeap
  emit (Event.instCalc cls none ((h0.cells atoms.infoRef).getD []))
  liftE (ext.nebInit start_file end_file (resolveInfo h0 atoms.infoRef)
    n_images interpolation restart)
  -- fmax = atoms.info['fmax']  (read but not used below)
  let _fmax ← getFmax atoms.infoRef
  -- neb_catlearn.run(fmax=0.05, trajectory=out_file)
  emit (Event.nebRunEv mlnebFmax out_file)
  liftE (ext.nebRun mlnebFmax out_file)
  -- images = decaf.io.read(out_file, ':')  (NameError when decaf never
  -- imported; the isinstance dispatch is commented out in the source)
  requireModule ext.decafAvailable "decaf"
  emit (Event.readMany out_file)
  let pimgs ← liftE (ext.decafReadTraj out_file)
  let images ← heapOp (fun h => allocImages h pimgs)
  -- for image in images: image.constraints = atoms.constraints; image._pbc = atoms.pbc
  emit Event.patchMeta
  let images := images.map (patchImage atoms)
  -- return fwio.atoms_to_encode(images)
  emit Event.encodeEv
  let h ← getHeap
  M.pure (ext.encode (images.map (resolveAtoms h)), images)

/-- Run one of the workflow functions from a given heap with an empty
trace: the final trace is then exactly the events of this one run. -/
def run0 (m : M α) (h : Heap) : Except Err α × St := m { heap := h, trace := [] }

/-- Unfolding lemma: running a bind. -/
theorem run_bind (m : M α) (f : α → M β) (s : St) :
    (m >>= f) s = match (m s).1 with
      | Except.ok a => f a (m s).2
      | Except.error e => (Except.error e, (m s).2) := rfl

/-- Unfolding lemma: running `pure`. -/
theorem run_pure (a : α) (s : St) : (M.pure a) s = (Except.ok a, s) := rfl

/-- Unfolding lemma: running `emit`. -/
theorem run_emit (e : Event) (s : St) :
    emit e s = (Except.ok (), { s with trace := s.trace ++ [e] }) := rfl

/-- Unfolding lemma: running `liftE`. -/
theorem run_liftE (r : Except Err α) (s : St) : liftE r s = (r, s) := rfl

/-- Unfolding lemma: running `throwE`. -/
theorem run_throwE (e : Err) (s : St) : (throwE e : M α) s = (Except.error e, s) := rfl

/-- Unfolding lemma: running `heapOp`. -/
theorem run_heapOp (f : Heap → Heap × α) (s : St) :
    heapOp f s = (Except.ok (f s.heap).2, { s with heap := (f s.heap).1 }) := rfl

/-- Unfolding lemma: running `getHeap`. -/
theorem run_getHeap (s : St) : getHeap s = (Except.ok s.heap, s) := rfl

/-- Unfolding lemma: running `readCell`. -/
theorem run_readCell (r : Nat) (s : St) :
    readCell r s = ((match s.heap.cells r with
      | some d => Except.ok d
      | none => Except.error (Err.typeError "dangling dict reference")), s) := rfl

/-- Unfolding lemma: running `setCell`. -/
theorem run_setCell (r : Nat) (d : Dict) (s : St) :
    setCell r d s = (Except.ok (), { s with heap := s.heap.set r d }) := rfl

/-- A freshly allocated cell holds the allocated dict. -/
theorem Heap.alloc_cells_self (h : Heap) (d : Dict) :
    (h.alloc d).1.cells (h.alloc d).2 = some d := by
  simp [Heap.alloc]

/-- Allocation leaves every other address unchanged. -/
theorem Heap.alloc_cells_ne (h : Heap) (d : Dict) (n : Nat) (hn : n ≠ (h.alloc d).2) :
    (h.alloc d).1.cells n = h.cells n := by
  simp [Heap.alloc] at hn ⊢
  simp [hn]

/-- The address an allocation returns is the heap's next address. -/
theorem Heap.alloc_snd (h : Heap) (d : Dict) : (h.alloc d).2 = h.next := rfl

/-- Allocation bumps the next address by one. -/
theorem Heap.alloc_next (h : Heap) (d : Dict) : (h.alloc d).1.next = h.next + 1 := rfl

/-- Overwriting an address stores the new dict there. -/
theorem Heap.set_cells_self (h : Heap) (r : Nat) (d : Dict) :
    (h.set r d).cells r = some d := by
  simp [Heap.set]

/-- Overwriting an address leaves every other address unchanged. -/
theorem Heap.set_cells_ne (h : Heap) (r : Nat) (d : Dict) (n : Nat) (hn : n ≠ r) :
    (h.set r d).cells n = h.cells n := by
  simp [Heap.set, hn]

/-- Overwriting keeps the next address. -/
theorem Heap.set_next (h : Heap) (r : Nat) (d : Dict) : (h.set r d).next = h.next := rfl

/-- Heap extension: every address allocated so far keeps its contents. -/
def HeapExt (h h' : Heap) : Prop :=
  h.next ≤ h'.next ∧ ∀ n, n < h.next → h'.cells n = h.cells n

/-- Extension is reflexive. -/
theorem heapExt_refl (h : Heap) : HeapExt h h := ⟨le_refl _, fun _ _ => rfl⟩

/-- Extension is transitive. -/
theorem heapExt_trans {h1 h2 h3 : Heap} (a : HeapExt h1 h2) (b : HeapExt h2 h3) :
    HeapExt h1 h3 :=
  ⟨le_trans a.1 b.1, fun n hn => (b.2 n (lt_of_lt_of_le hn a.1)).trans (a.2 n hn)⟩

/-- Allocation extends the heap. -/
theorem alloc_heapExt (h : Heap) (d : Dict) : HeapExt h (h.alloc d).1 := by
  refine ⟨by simp [Heap.alloc], fun n hn => ?_⟩
  simp only [Heap.alloc]
  have : ¬ n = h.next := Nat.ne_of_lt hn
  simp [this]

/-- `allocPValue` extends the heap. -/
theorem allocPValue_heapExt (h : Heap) (v : PValue) : HeapExt h (allocPValue h v).1 := by
  cases v with
  | prim p => exact heapExt_refl h
  | dict d => exact alloc_heapExt _ _

/-- `allocPDict` extends the heap. -/
theorem allocPDict_heapExt (h : Heap) (d : PDict) : HeapExt h (allocPDict h d).1 := by
  induction d generalizing h with
  | nil => exact heapExt_refl h
  | cons kv rest ih =>
      exact heapExt_trans (allocPValue_heapExt h kv.2) (ih (allocPValue h kv.2).1)

/-- `allocInfo` extends the heap. -/
theorem allocInfo_heapExt (h : Heap) (d : PDict) : HeapExt h (allocInfo h d).1 :=
  heapExt_trans (allocPDict_heapExt h d) (alloc_heapExt _ _)

/-- `allocAtoms` extends the heap. -/
theorem allocAtoms_heapExt (h : Heap) (pa : PAtoms) : HeapExt h (allocAtoms h pa).1 :=
  allocInfo_heapExt h pa.info

/-- `allocImages` extends the heap. -/
theorem allocImages_heapExt (h : Heap) (l : List PAtoms) :
    HeapExt h (allocImages h l).1 := by
  induction l generalizing h with
  | nil => exact heapExt_refl h
  | cons pa rest ih =>
      exact heapExt_trans (allocAtoms_heapExt h pa) (ih (allocAtoms h pa).1)

/-- Allocation of an image list keeps its length. -/
theorem allocImages_length (h : Heap) (l : List PAtoms) :
    (allocImages h l).2.length = l.length := by
  induction l generalizing h with
  | nil => rfl
  | cons pa rest ih => simp [allocImages, ih]

/-- A value/dict whose references all point below a bound. -/
def ValBound (n : Nat) (v : Value) : Prop :=
  match v with
  | Value.prim _ => True
  | Value.ref r => r < n

/-- All references of a dict point below a bound. -/
def DictBound (n : Nat) (d : Dict) : Prop := ∀ kv ∈ d, ValBound n kv.2

/-- Bounds are monotone. -/
theorem valBound_mono {n n' : Nat} (hle : n ≤ n') {v : Value} (hv : ValBound n v) :
    ValBound n' v := by
  cases v with
  | prim p => trivial
  | ref r => exact lt_of_lt_of_le hv hle

/-- Bounds are monotone. -/
theorem dictBound_mono {n n' : Nat} (hle : n ≤ n') {d : Dict} (hd : DictBound n d) :
    DictBound n' d := fun kv hkv => valBound_mono hle (hd kv hkv)

/-- Resolution of a bounded value only depends on the cells below the
bound, so any extension resolves it the same way. -/
theorem resolveValue_stable {h h' : Heap} (hext : HeapExt h h') {v : Value}
    (hv : ValBound h.next v) : resolveValue h' v = resolveValue h v := by
  cases v with
  | prim p => rfl
  | ref r => simp [resolveValue, hext.2 r hv]

/-- Resolution of a bounded dict is stable under extension. -/
theorem resolveDict_stable {h h' : Heap} (hext : HeapExt h h') {d : Dict}
    (hd : DictBound h.next d) : resolveDict h' d = resolveDict h d := by
  unfold resolveDict
  apply List.map_congr_left
  intro kv hkv
  rw [resolveValue_stable hext (hd kv hkv)]

/-- The value `allocPValue` returns is bounded by the resulting heap. -/
theorem allocPValue_bound (h : Heap) (v : PValue) :
    ValBound (allocPValue h v).1.next (allocPValue h v).2 := by
  cases v with
  | prim p => trivial
  | dict d => simp [allocPValue, Heap.alloc, ValBound]

/-- The dict `allocPDict` returns is bounded by the resulting heap. -/
theorem allocPDict_bound (h : Heap) (d : PDict) :
    DictBound (allocPDict h d).1.next (allocPDict h d).2 := by
  induction d generalizing h with
  | nil => intro kv hkv; cases hkv
  | cons kv rest ih =>
      intro kw hkw
      rcases List.mem_cons.1 hkw with hh | ht
      · subst hh
        exact valBound_mono (allocPDict_heapExt (allocPValue h kv.2).1 rest).1
          (allocPValue_bound h kv.2)
      · exact ih (allocPValue h kv.2).1 kw ht

/-- The info cell of a freshly allocated structure holds its allocated
info dict. -/
theorem allocAtoms_cells_self (h : Heap) (pa : PAtoms) :
    (allocAtoms h pa).1.cells (allocAtoms h pa).2.infoRef =
      some (allocPDict h pa.info).2 := by
  simp [allocAtoms, allocInfo, Heap.alloc]

/-- Reading back a flat dict allocated as primitives gives the flat dict. -/
theorem filterMap_prim_map (d : FlatDict) :
    (d.map (fun kp => (kp.1, Value.prim kp.2))).filterMap
      (fun kv : String × Value => match kv.2 with
        | Value.prim p => some (kv.1, p)
        | Value.ref _ => none) = d := by
  induction d with
  | nil => rfl
  | cons kp rest ih => simp [ih]

/-- Resolving a freshly allocated value in any extension of the resulting
heap gives the value back. -/
theorem resolveValue_allocPValue {h : Heap} (v : PValue) {h' : Heap}
    (hext : HeapExt (allocPValue h v).1 h') :
    resolveValue h' (allocPValue h v).2 = v := by
  cases v with
  | prim p => rfl
  | dict d =>
      have hcell : h'.cells (h.alloc (d.map (fun kp => (kp.1, Value.prim kp.2)))).2 =
          some (d.map (fun kp => (kp.1, Value.prim kp.2))) := by
        rw [hext.2 _ (by simp [allocPValue, Heap.alloc])]
        exact Heap.alloc_cells_self h _
      simp only [allocPValue, resolveValue, hcell, Option.getD_some]
      exact congrArg PValue.dict (filterMap_prim_map d)

/-- Resolving a freshly allocated dict in any extension of the resulting
heap gives the dict back. -/
theorem resolveDict_allocPDict {h : Heap} (d : PDict) {h' : Heap}
    (hext : HeapExt (allocPDict h d).1 h') :
    resolveDict h' (allocPDict h d).2 = d := by
  induction d generalizing h with
  | nil => rfl
  | cons kv rest ih =>
      have hext1 : HeapExt (allocPValue h kv.2).1 h' :=
        heapExt_trans (allocPDict_heapExt (allocPValue h kv.2).1 rest) hext
      have h1 : resolveValue h' (allocPValue h kv.2).2 = kv.2 :=
        resolveValue_allocPValue kv.2 hext1
      have h2 : resolveDict h' (allocPDict (allocPValue h kv.2).1 rest).2 = rest :=
        ih hext
      simp only [allocPDict, resolveDict, List.map_cons] at h2 ⊢
      rw [h1, h2]

/-- The info cell of a freshly allocated structure, read in any extension
of the resulting heap. -/
theorem allocAtoms_cells_ext {h : Heap} (pa : PAtoms) {h' : Heap}
    (hext : HeapExt (allocAtoms h pa).1 h') :
    h'.cells (allocAtoms h pa).2.infoRef = some (allocPDict h pa.info).2 := by
  rw [hext.2 _ ?_, allocAtoms_cells_self]
  simp [allocAtoms, allocInfo, Heap.alloc]

/-- Resolving a freshly allocated structure in any extension of the
resulting heap gives the structure back. -/
theorem resolveAtoms_allocAtoms {h : Heap} (pa : PAtoms) {h' : Heap}
    (hext : HeapExt (allocAtoms h pa).1 h') :
    resolveAtoms h' (allocAtoms h pa).2 = pa := by
  have hcell := allocAtoms_cells_ext pa hext
  have hd : resolveDict h' (allocPDict h pa.info).2 = pa.info := by
    apply resolveDict_allocPDict
    exact heapExt_trans (alloc_heapExt (allocPDict h pa.info).1 (allocPDict h pa.info).2) hext
  unfold resolveAtoms resolveInfo
  rw [hcell, Option.getD_some, hd]
  cases pa
  simp [allocAtoms]

/-- Resolving a freshly allocated trajectory in any extension of the
resulting heap gives the trajectory back. -/
theorem resolveAtoms_allocImages {h : Heap} (l : List PAtoms) {h' : Heap}
    (hext : HeapExt (allocImages h l).1 h') :
    (allocImages h l).2.map (resolveAtoms h') = l := by
  induction l generalizing h with
  | nil => rfl
  | cons pa rest ih =>
      have h1 : resolveAtoms h' (allocAtoms h pa).2 = pa :=
        resolveAtoms_allocAtoms pa
          (heapExt_trans (allocImages_heapExt (allocAtoms h pa).1 rest) hext)
      have h2 : (allocImages (allocAtoms h pa).1 rest).2.map (resolveAtoms h') = rest :=
        ih hext
      simp only [allocImages, List.map_cons]
      rw [h1, h2]

/-- Patching an image then resolving it: only constraints and pbc change. -/
theorem resolveAtoms_patchImage (h : Heap) (a img : Atoms) :
    resolveAtoms h (patchImage a img) =
      { resolveAtoms h img with constraints := a.constraints, pbc := a.pbc } := rfl

/-- Every image of a patched list carries the patching structure's
constraints and pbc. -/
theorem patched_constraints_pbc (a : Atoms) (l : List Atoms) :
    ∀ img ∈ l.map (patchImage a), img.constraints = a.constraints ∧ img.pbc = a.pbc := by
  intro img himg
  obtain ⟨x, _, rfl⟩ := List.mem_map.1 himg
  exact ⟨rfl, rfl⟩

/-- `applyCalc` keeps pbc. -/
theorem applyCalc_pbc (a : Atoms) (r : CalcRes) : (applyCalc a r).pbc = a.pbc := rfl

/-- `applyCalc` keeps constraints. -/
theorem applyCalc_constraints (a : Atoms) (r : CalcRes) :
    (applyCalc a r).constraints = a.constraints := rfl

/-- Popping a key really removes it. -/
theorem dictGet_dictPop (d : Dict) (k : String) : dictGet (dictPop d k) k = none := by
  induction d with
  | nil => rfl
  | cons kv rest ih =>
      by_cases hk : kv.1 = k <;>
      · simp only [dictPop, dictGet, List.filter_cons, hk] at ih ⊢
        simp_all [dictPop, dictGet, hk]

/-- `defaultAtoms` hands a given structure through unchanged. -/
theorem defaultAtoms_some (ext : Oracle) (a : Atoms) (s : St) :
    defaultAtoms ext (some a) s = (Except.ok a, s) := rfl

/-- `defaultAtoms` on a missing argument reads and allocates the default
input file. -/
theorem defaultAtoms_none_ok (ext : Oracle) (s : St) (pa : PAtoms)
    (hread : ext.readFile "input.traj" = Except.ok pa) :
    defaultAtoms ext none s =
      (Except.ok (allocAtoms s.heap pa).2,
       { heap := (allocAtoms s.heap pa).1,
         trace := s.trace ++ [Event.readOne "input.traj"] }) := by
  simp [defaultAtoms, addEvent, hread]

/-- `defaultAtoms` on a missing argument propagates a read failure. -/
theorem defaultAtoms_none_err (ext : Oracle) (s : St) (e : Err)
    (hread : ext.readFile "input.traj" = Except.error e) :
    defaultAtoms ext none s =
      (Except.error e, { s with trace := s.trace ++ [Event.readOne "input.traj"] }) := by
  simp [defaultAtoms, addEvent, hread]

/-- `defaultParams` hands a given dict reference through unchanged. -/
theorem defaultParams_some (infoRef : Nat) (r : Nat) (s : St) :
    defaultParams infoRef (some r) s = (Except.ok r, s) := rfl

/-- `defaultParams` on a missing argument looks the reference up in the
structure's info mapping. -/
theorem defaultParams_none_ok (infoRef : Nat) (s : St) (info : Dict) (p : Nat)
    (hc : s.heap.cells infoRef = some info)
    (hcp : dictGet info "calculator_parameters" = some (Value.ref p)) :
    defaultParams infoRef none s = (Except.ok p, s) := by
  simp [defaultParams, getParamsRef, hc, hcp]

/-- `defaultCalculatorName` hands a given name through unchanged. -/
theorem defaultCalculatorName_some (pref : Nat) (nm : String) (s : St) :
    defaultCalculatorName pref (some nm) s = (Except.ok nm, s) := rfl

/-- `defaultCalculatorName` on a missing argument pops the name out of the
shared parameters dict, mutating it in place. -/
theorem defaultCalculatorName_none_ok (pref : Nat) (s : St) (d : Dict) (nm : String)
    (hc : s.heap.cells pref = some d)
    (hk : dictGet d "calculator_name" = some (Value.prim (Prim.str nm))) :
    defaultCalculatorName pref none s =
      (Except.ok nm, { s with heap := s.heap.set pref (dictPop d "calculator_name") }) := by
  simp [defaultCalculatorName, hc, hk]

/-- `defaultCalculatorName` raises KeyError when the key to pop is absent. -/
theorem defaultCalculatorName_none_missing (pref : Nat) (s : St) (d : Dict)
    (hc : s.heap.cells pref = some d)
    (hk : dictGet d "calculator_name" = none) :
    defaultCalculatorName pref none s = (Except.error (Err.keyError "calculator_name"), s) := by
  simp [defaultCalculatorName, hc, hk]

/-- `maybeResymmetrize` is the identity for a structure that is not
periodic in all three directions. -/
theorem maybeResymmetrize_nonbulk (ext : Oracle) (cls : String) (pref : Nat)
    (calc0 : Calc) (atoms : Atoms) (s : St) (hnb : atoms.pbc.all id = false) :
    maybeResymmetrize ext cls pref calc0 atoms s = (Except.ok (calc0, atoms), s) := by
  simp [maybeResymmetrize, hnb]

/-- `maybeResymmetrize` on a fully periodic structure: resymmetrize via
the prototype, switch the shared parameters dict to `scf`, instantiate
and run a second calculator. -/
theorem maybeResymmetrize_bulk_ok (ext : Oracle) (cls : String) (pref : Nat)
    (calc0 : Calc) (atoms : Atoms) (s : St) (pr : String × PAtoms) (d : Dict)
    (res1 : CalcRes)
    (hb : atoms.pbc.all id = true)
    (hck : ext.ckutilAvailable = true)
    (hpr : ext.prototype atoms protoTol = Except.ok pr)
    (hc1 : (allocAtoms s.heap pr.2).1.cells pref = some d)
    (hrun1 : ext.calcRun
      (Calc.mk cls (some "pw1.pwi") (dictSet d "calculation" (Value.prim (Prim.str "scf"))))
      (allocAtoms s.heap pr.2).2 = Except.ok res1) :
    maybeResymmetrize ext cls pref calc0 atoms s =
      (Except.ok
        (Calc.mk cls (some "pw1.pwi") (dictSet d "calculation" (Value.prim (Prim.str "scf"))),
         applyCalc (allocAtoms s.heap pr.2).2 res1),
       { heap := ((allocAtoms s.heap pr.2).1).set pref
           (dictSet d "calculation" (Value.prim (Prim.str "scf"))),
         trace := s.trace ++
           [Event.instCalc cls (some "pw1.pwi")
             (dictSet d "calculation" (Value.prim (Prim.str "scf"))),
            Event.runCalc] }) := by
  simp [maybeResymmetrize, hb, hck, hpr, hc1, Heap.set_cells_self, addEvent, hrun1]

/-- A freshly allocated structure keeps the pure structure's fields. -/
theorem allocAtoms_fields (h : Heap) (pa : PAtoms) :
    (allocAtoms h pa).2.positions = pa.positions ∧
    (allocAtoms h pa).2.cell = pa.cell ∧
    (allocAtoms h pa).2.pbc = pa.pbc ∧
    (allocAtoms h pa).2.constraints = pa.constraints ∧
    (allocAtoms h pa).2.energy = pa.energy := by
  simp [allocAtoms]

/-- `getParamsRef` successful lookup. -/
theorem getParamsRef_ok (infoRef : Nat) (s : St) (info : Dict) (p : Nat)
    (hc : s.heap.cells infoRef = some info)
    (hcp : dictGet info "calculator_parameters" = some (Value.ref p)) :
    getParamsRef infoRef s = (Except.ok p, s) := by
  simp [getParamsRef, hc, hcp]

/-- Success-path run equation for `get_potential_energy`, with each
external call's outcome pinned by a hypothesis: the run returns the
patched, encoded trajectory and its trace is the fixed event list. -/
theorem get_potential_energy_run (ext : Oracle) (calculator in_file out_file : String)
    (h0 : Heap) (pa : PAtoms) (cls : String) (pref : Nat) (params : Dict)
    (res : CalcRes) (pimgs : List PAtoms)
    (hread : ext.readFile in_file = Except.ok pa)
    (hstc : ext.strToClass calculator = Except.ok cls)
    (hcp : dictGet (allocPDict h0 pa.info).2 "calculator_parameters" =
      some (Value.ref pref))
    (hpp : (allocAtoms h0 pa).1.cells pref = some params)
    (hrun : ext.calcRun (Calc.mk cls none params) (allocAtoms h0 pa).2 = Except.ok res)
    (hdec : ext.decafAvailable = true)
    (hrdt : (if ext.isEspresso cls then ext.decafReadTraj out_file
      else ext.readTraj out_file) = Except.ok pimgs) :
    get_potential_energy ext calculator in_file out_file { heap := h0, trace := [] } =
      (Except.ok
        (ext.encode
          (((allocImages (allocAtoms h0 pa).1 pimgs).2.map
              (patchImage (applyCalc (allocAtoms h0 pa).2 res))).map
            (resolveAtoms (allocImages (allocAtoms h0 pa).1 pimgs).1)),
         (allocImages (allocAtoms h0 pa).1 pimgs).2.map
           (patchImage (applyCalc (allocAtoms h0 pa).2 res))),
       { heap := (allocImages (allocAtoms h0 pa).1 pimgs).1,
         trace := [Event.readOne in_file,
           Event.instCalc cls none params,
           Event.runCalc,
           Event.branch BranchTag.isinstanceEspresso (ext.isEspresso cls),
           Event.readMany out_file,
           Event.patchMeta,
           Event.encodeEv] }) := by
  simp only [get_potential_energy, run_bind, run_emit, run_liftE, run_pure,
    run_heapOp, run_getHeap, readCell, getParamsRef, requireModule, addEvent,
    hread, hstc, allocAtoms_cells_self, hcp, hpp, hrun, hdec, hrdt,
    List.nil_append, List.cons_append, List.append_assoc, List.append_nil]

/-- Success-path run equation for `run_mlneb`, with each external call's
outcome pinned by a hypothesis: the NEB run is always invoked with the
literal threshold `0.05` (`mlnebFmax`), and the returned trajectory is
patched with the input structure's constraints and pbc. -/
theorem run_mlneb_run (ext : Oracle)
    (start_file end_file out_file : String) (n_images : Nat)
    (interpolation : String) (restart : Bool)
    (h0 : Heap) (pa : PAtoms) (cls : String) (v : Value) (pimgs : List PAtoms)
    (hread : ext.readFile start_file = Except.ok pa)
    (hstc : ext.strToClass "catlearn.optimize.mlneb.MLNEB" = Except.ok cls)
    (hni : ext.nebInit start_file end_file
      (resolveInfo (allocAtoms h0 pa).1 (allocAtoms h0 pa).2.infoRef)
      n_images interpolation restart = Except.ok ())
    (hfm : dictGet (allocPDict h0 pa.info).2 "fmax" = some v)
    (hnr : ext.nebRun mlnebFmax out_file = Except.ok ())
    (hdec : ext.decafAvailable = true)
    (hrdt : ext.decafReadTraj out_file = Except.ok pimgs) :
    run_mlneb ext start_file end_file out_file n_images interpolation restart
      { heap := h0, trace := [] } =
      (Except.ok
        (ext.encode
          (((allocImages (allocAtoms h0 pa).1 pimgs).2.map
              (patchImage (allocAtoms h0 pa).2)).map
            (resolveAtoms (allocImages (allocAtoms h0 pa).1 pimgs).1)),
         (allocImages (allocAtoms h0 pa).1 pimgs).2.map
           (patchImage (allocAtoms h0 pa).2)),
       { heap := (allocImages (allocAtoms h0 pa).1 pimgs).1,
         trace := [Event.readOne start_file,
           Event.instCalc cls none (allocPDict h0 pa.info).2,
           Event.nebRunEv mlnebFmax out_file,
           Event.readMany out_file,
           Event.patchMeta,
           Event.encodeEv] }) := by
  simp only [run_mlneb, run_bind, run_emit, run_liftE, run_pure, run_heapOp,
    run_getHeap, getFmax, requireModule, addEvent,
    hread, hstc, allocAtoms_cells_self, Option.getD_some, hni, hfm, hnr, hdec, hrdt,
    List.nil_append, List.cons_append, List.append_assoc, List.append_nil]

/-- Success-path run equation for `catflow_relaxation`, with the
defaulting steps, the optional resymmetrization block and each external
call's outcome pinned by hypotheses (the step hypotheses are quantified
over the trace because none of those steps reads it). -/
theorem catflow_relaxation_run (ext : Oracle) (atoms? : Option Atoms)
    (calculator_name? : Option String) (parameters? : Option Nat)
    (h0 h1 h2 h4 : Heap) (atoms0 : Atoms) (trA trB : List Event)
    (pref : Nat) (cname : String) (infoD : Dict) (cls : String)
    (params0 : Dict) (res : CalcRes) (ca : Calc × Atoms)
    (pimgs : List PAtoms) (i0 : Atoms) (irest : List Atoms)
    (imagesF : List Atoms)
    (hda : ∀ t, defaultAtoms ext atoms? { heap := h0, trace := t } =
      (Except.ok atoms0, { heap := h1, trace := t ++ trA }))
    (hdp : ∀ t, defaultParams atoms0.infoRef parameters? { heap := h1, trace := t } =
      (Except.ok pref, { heap := h1, trace := t }))
    (hdcn : ∀ t, defaultCalculatorName pref calculator_name? { heap := h1, trace := t } =
      (Except.ok cname, { heap := h2, trace := t }))
    (hi : h2.cells atoms0.infoRef = some infoD)
    (hstc : ext.strToClass cname = Except.ok cls)
    (hp0 : (h2.alloc infoD).1.cells pref = some params0)
    (hrun : ext.calcRun (Calc.mk cls (some "pw0.pwi") params0) atoms0 = Except.ok res)
    (hmr : ∀ t, maybeResymmetrize ext cls pref (Calc.mk cls (some "pw0.pwi") params0)
      (applyCalc atoms0 res) { heap := (h2.alloc infoD).1, trace := t } =
      (Except.ok ca, { heap := h4, trace := t ++ trB }))
    (hdec : ext.decafAvailable = true)
    (hrdt : (if ext.isEspresso ca.1.cls then ext.decafReadTraj "pw0.pwo"
      else ext.readTraj "pw0.pwo") = Except.ok pimgs)
    (hne : (allocImages h4 pimgs).2 = i0 :: irest)
    (himgs : ((if ca.2.pbc.all id then
        { i0 with infoRef := (h2.alloc infoD).2 } :: (irest ++ [ca.2])
      else
        { i0 with infoRef := (h2.alloc infoD).2 } :: irest).map
        (patchImage ca.2)) = imagesF)
    (hdb : ext.dbUpdate (imagesF.map (resolveAtoms (allocImages h4 pimgs).1)) =
      Except.ok ()) :
    catflow_relaxation ext atoms? calculator_name? parameters?
      { heap := h0, trace := [] } =
      (Except.ok
        (ext.encode (imagesF.map (resolveAtoms (allocImages h4 pimgs).1)), imagesF),
       { heap := (allocImages h4 pimgs).1,
         trace := Event.branch BranchTag.atomsIsNone atoms?.isNone ::
           (trA ++ (Event.branch BranchTag.parametersIsNone parameters?.isNone ::
             Event.branch BranchTag.calculatorNameIsNone calculator_name?.isNone ::
             Event.instCalc cls (some "pw0.pwi") params0 ::
             Event.runCalc ::
             Event.branch BranchTag.pbcAll ((applyCalc atoms0 res).pbc.all id) ::
             (trB ++ [Event.branch BranchTag.isinstanceEspresso (ext.isEspresso ca.1.cls),
               Event.readMany "pw0.pwo",
               Event.branch BranchTag.pbcAll (ca.2.pbc.all id),
               Event.patchMeta,
               Event.dbOpen, Event.dbWrite, Event.dbClose,
               Event.encodeEv]))) }) := by
  simp only [catflow_relaxation, run_bind, run_emit, run_liftE, run_pure,
    run_heapOp, run_getHeap, readCell, setFirstInfo, dbWriteScoped,
    requireModule, addEvent,
    hda, hdp, hdcn, hi, hstc, hp0, hrun, hmr, hdec, hrdt, hne, himgs, hdb,
    List.nil_append, List.cons_append, List.append_assoc, List.append_nil]

/-- A computation only appends events satisfying `P` to the trace (on any
start state, whether it succeeds or raises). -/
def Emits (m : M α) (P : Event → Prop) : Prop :=
  ∀ s, ∃ tr, (m s).2.trace = s.trace ++ tr ∧ ∀ e ∈ tr, P e

/-- `pure` appends nothing. -/
theorem emits_pure (a : α) (P : Event → Prop) : Emits (M.pure a) P :=
  fun s => ⟨[], by simp [M.pure], by simp⟩

/-- A bind appends what its two parts append. -/
theorem emits_bind {m : M α} {f : α → M β} {P : Event → Prop}
    (hm : Emits m P) (hf : ∀ a, Emits (f a) P) : Emits (m >>= f) P := by
  intro s
  obtain ⟨tr1, ht1, hp1⟩ := hm s
  show ∃ tr, (M.bind m f s).2.trace = s.trace ++ tr ∧ ∀ e ∈ tr, P e
  unfold M.bind
  cases hr : (m s).1 with
  | ok a =>
      obtain ⟨tr2, ht2, hp2⟩ := hf a (m s).2
      refine ⟨tr1 ++ tr2, ?_, ?_⟩
      · simp [ht2, ht1, List.append_assoc]
      · intro e he
        rcases List.mem_append.1 he with h | h
        · exact hp1 e h
        · exact hp2 e h
  | error e => exact ⟨tr1, by simp [ht1], hp1⟩

/-- A trace-preserving computation appends nothing. -/
theorem emits_of_traceId {m : M α} (hid : ∀ s, (m s).2.trace = s.trace)
    (P : Event → Prop) : Emits m P :=
  fun s => ⟨[], by simp [hid s], by simp⟩

/-- `emit` appends its one event. -/
theorem emits_emit {e : Event} {P : Event → Prop} (hP : P e) : Emits (emit e) P :=
  fun s => ⟨[e], rfl, by simpa⟩

/-- `liftE` appends nothing. -/
theorem emits_liftE (r : Except Err α) (P : Event → Prop) : Emits (liftE r) P :=
  emits_of_traceId (fun _ => rfl) P

/-- `throwE` appends nothing. -/
theorem emits_throwE (e : Err) (P : Event → Prop) : Emits (throwE e : M α) P :=
  emits_of_traceId (fun _ => rfl) P

/-- `heapOp` appends nothing. -/
theorem emits_heapOp (f : Heap → Heap × α) (P : Event → Prop) : Emits (heapOp f) P :=
  emits_of_traceId (fun _ => rfl) P

/-- `getHeap` appends nothing. -/
theorem emits_getHeap (P : Event → Prop) : Emits getHeap P :=
  emits_of_traceId (fun _ => rfl) P

/-- `readCell` appends nothing. -/
theorem emits_readCell (r : Nat) (P : Event → Prop) : Emits (readCell r) P :=
  emits_of_traceId (fun _ => rfl) P

/-- `setCell` appends nothing. -/
theorem emits_setCell (r : Nat) (d : Dict) (P : Event → Prop) : Emits (setCell r d) P :=
  emits_of_traceId (fun _ => rfl) P

/-- `getParamsRef` appends nothing. -/
theorem emits_getParamsRef (i : Nat) (P : Event → Prop) : Emits (getParamsRef i) P :=
  emits_of_traceId (fun _ => rfl) P

/-- `getFmax` appends nothing. -/
theorem emits_getFmax (i : Nat) (P : Event → Prop) : Emits (getFmax i) P :=
  emits_of_traceId (fun _ => rfl) P

/-- `setFirstInfo` appends nothing. -/
theorem emits_setFirstInfo (i : Nat) (l : List Atoms) (P : Event → Prop) :
    Emits (setFirstInfo i l) P :=
  emits_of_traceId (fun _ => rfl) P

/-- `requireModule` appends nothing. -/
theorem emits_requireModule (b : Bool) (n : String) (P : Event → Prop) :
    Emits (requireModule b n) P :=
  emits_of_traceId (fun _ => rfl) P

/-- `defaultAtoms` appends at most the default-file read event. -/
theorem emits_defaultAtoms (ext : Oracle) (atoms? : Option Atoms) {P : Event → Prop}
    (hP : P (Event.readOne "input.traj")) : Emits (defaultAtoms ext atoms?) P := by
  intro s
  cases atoms? with
  | some a => exact ⟨[], by simp [defaultAtoms], by simp⟩
  | none =>
      refine ⟨[Event.readOne "input.traj"], ?_, by simpa⟩
      unfold defaultAtoms
      cases ext.readFile "input.traj" <;> simp [addEvent]

/-- `defaultParams` appends nothing. -/
theorem emits_defaultParams (i : Nat) (parameters? : Option Nat) (P : Event → Prop) :
    Emits (defaultParams i parameters?) P := by
  refine emits_of_traceId (fun s => ?_) P
  cases parameters? <;> rfl

/-- `defaultCalculatorName` appends nothing. -/
theorem emits_defaultCalculatorName (pref : Nat) (calculator_name? : Option String)
    (P : Event → Prop) : Emits (defaultCalculatorName pref calculator_name?) P := by
  refine emits_of_traceId (fun s => ?_) P
  unfold defaultCalculatorName
  cases calculator_name? with
  | some nm => rfl
  | none =>
      rcases hc : s.heap.cells pref with _ | d
      · simp [hc]
      · rcases hk : dictGet d "calculator_name" with _ | v
        · simp [hc, hk]
        · rcases v with p | r
          · rcases p with nm | n | q | b <;> simp [hc, hk]
          · simp [hc, hk]

/-- `maybeResymmetrize` appends at most a calculator instantiation and a
calculator run. -/
theorem emits_maybeResymmetrize (ext : Oracle) (cls : String) (pref : Nat)
    (calc0 : Calc) (atoms : Atoms) {P : Event → Prop}
    (hinst : ∀ c f d, P (Event.instCalc c f d)) (hrun : P Event.runCalc) :
    Emits (maybeResymmetrize ext cls pref calc0 atoms) P := by
  intro s
  unfold maybeResymmetrize
  by_cases hb : atoms.pbc.all id = true
  · simp only [hb, if_true]
    cases ext.ckutilAvailable
    · exact ⟨[], by simp, by simp⟩
    · cases ext.prototype atoms protoTol with
      | error e => exact ⟨[], by simp, by simp⟩
      | ok pr =>
          cases hc : (allocAtoms s.heap pr.2).1.cells pref with
          | none => exact ⟨[], by simp [hc], by simp⟩
          | some d =>
              refine ⟨[Event.instCalc cls (some "pw1.pwi")
                (dictSet d "calculation" (Value.prim (Prim.str "scf"))), Event.runCalc],
                ?_, ?_⟩
              · rcases hr : ext.calcRun
                  (Calc.mk cls (some "pw1.pwi")
                    (dictSet d "calculation" (Value.prim (Prim.str "scf"))))
                  (allocAtoms s.heap pr.2).2 with e | res1 <;>
                  simp [hc, hr, Heap.set_cells_self, addEvent, List.append_assoc]
              · intro e he
                rcases List.mem_cons.1 he with h | h
                · exact h ▸ hinst _ _ _
                · simp at h
                  exact h ▸ hrun
  · simp only [Bool.not_eq_true] at hb
    simp only [hb]
    exact ⟨[], by simp, by simp⟩

/-- `dbWriteScoped` appends at most the write and close events. -/
theorem emits_dbWriteScoped (r : Except Err Unit) {P : Event → Prop}
    (hw : P Event.dbWrite) (hc : P Event.dbClose) : Emits (dbWriteScoped r) P := by
  intro s
  cases r with
  | ok _ =>
      refine ⟨[Event.dbWrite, Event.dbClose], rfl, ?_⟩
      intro e he
      rcases List.mem_cons.1 he with h | h
      · exact h ▸ hw
      · simp at h
        exact h ▸ hc
  | error e => exact ⟨[Event.dbClose], rfl, by simpa⟩

/-- Weakening for `Emits`. -/
theorem emits_mono {m : M α} {P Q : Event → Prop} (h : Emits m P)
    (hpq : ∀ e, P e → Q e) : Emits m Q := by
  intro s
  obtain ⟨tr, ht, hp⟩ := h s
  exact ⟨tr, ht, fun e he => hpq e (hp e he)⟩

/-- Every event `get_potential_energy` can put on the trace: reads, one
calculator instantiation and run, the isinstance branch test, the patch
and encode markers — in particular no database event and no branch test
other than the calculator-type one. -/
def GpeVocab (e : Event) : Prop :=
  match e with
  | Event.branch t _ => t = BranchTag.isinstanceEspresso
  | Event.dbOpen => False
  | Event.dbWrite => False
  | Event.dbClose => False
  | Event.nebRunEv _ _ => False
  | _ => True

/-- Every event `run_mlneb` can put on the trace: no branch test at all
and no database event. -/
def MlnebVocab (e : Event) : Prop :=
  match e with
  | Event.branch _ _ => False
  | Event.dbOpen => False
  | Event.dbWrite => False
  | Event.dbClose => False
  | _ => True

/-- Every event `catflow_relaxation` can put on the trace: its branch
tests are exactly the three argument-is-None tests, the periodic-flags
test and the calculator-type test. -/
def CfVocab (e : Event) : Prop :=
  match e with
  | Event.branch t _ =>
      t = BranchTag.atomsIsNone ∨ t = BranchTag.parametersIsNone ∨
      t = BranchTag.calculatorNameIsNone ∨ t = BranchTag.pbcAll ∨
      t = BranchTag.isinstanceEspresso
  | Event.nebRunEv _ _ => False
  | _ => True

/-- Any run of `get_potential_energy` only appends `GpeVocab` events. -/
theorem emits_get_potential_energy (ext : Oracle) (calculator in_file out_file : String) :
    Emits (get_potential_energy ext calculator in_file out_file) GpeVocab := by
  unfold get_potential_energy
  repeat' first
    | apply emits_bind
    | exact emits_emit (by simp [GpeVocab])
    | exact emits_heapOp _ _
    | exact emits_getHeap _
    | exact emits_readCell _ _
    | exact emits_getParamsRef _ _
    | exact emits_requireModule _ _ _
    | exact emits_liftE _ _
    | exact emits_pure _ _
    | intro _

/-- Any run of `run_mlneb` only appends `MlnebVocab` events. -/
theorem emits_run_mlneb (ext : Oracle)
    (start_file end_file out_file : String) (n_images : Nat)
    (interpolation : String) (restart : Bool) :
    Emits (run_mlneb ext start_file end_file out_file n_images interpolation restart)
      MlnebVocab := by
  unfold run_mlneb
  repeat' first
    | apply emits_bind
    | exact emits_emit (by simp [MlnebVocab])
    | exact emits_heapOp _ _
    | exact emits_getHeap _
    | exact emits_readCell _ _
    | exact emits_getFmax _ _
    | exact emits_requireModule _ _ _
    | exact emits_liftE _ _
    | exact emits_pure _ _
    | intro _

/-- Any run of `catflow_relaxation` only appends `CfVocab` events. -/
theorem emits_catflow_relaxation (ext : Oracle) (atoms? : Option Atoms)
    (calculator_name? : Option String) (parameters? : Option Nat) :
    Emits (catflow_relaxation ext atoms? calculator_name? parameters?) CfVocab := by
  unfold catflow_relaxation
  repeat' first
    | apply emits_bind
    | exact emits_emit (by simp [CfVocab])
    | exact emits_defaultAtoms _ _ (by simp [CfVocab])
    | exact emits_defaultParams _ _ _
    | exact emits_defaultCalculatorName _ _ _
    | exact emits_maybeResymmetrize _ _ _ _ _ (by simp [CfVocab]) (by simp [CfVocab])
    | exact emits_dbWriteScoped _ (by simp [CfVocab]) (by simp [CfVocab])
    | exact emits_heapOp _ _
    | exact emits_getHeap _
    | exact emits_readCell _ _
    | exact emits_setFirstInfo _ _ _
    | exact emits_requireModule _ _ _
    | exact emits_liftE _ _
    | exact emits_pure _ _
    | intro _

/-- The database events of a trace. -/
def dbEvents (tr : List Event) : List Event :=
  tr.filter (fun e => e = Event.dbOpen ∨ e = Event.dbWrite ∨ e = Event.dbClose)

/-- The tags of the conditional tests a trace records. -/
def branchTags (tr : List Event) : List BranchTag :=
  tr.filterMap (fun e => match e with
    | Event.branch t _ => some t
    | _ => none)

/-- The file paths a trace reads (single-structure and whole-trajectory
reads alike). -/
def readPaths (tr : List Event) : List String :=
  tr.filterMap (fun e => match e with
    | Event.readOne p => some p
    | Event.readMany p => some p
    | _ => none)

/-- The NEB force thresholds a trace runs with. -/
def nebFmaxes (tr : List Event) : List Rat :=
  tr.filterMap (fun e => match e with
    | Event.nebRunEv f _ => some f
    | _ => none)

/-- The abstract operations of the spec's linear order. -/
inductive Op where
  | readStructure
  | instantiateCalc
  | runComputation
  | readTrajectory
  | patchMetadata
  | persist
  | encodeReturn
deriving DecidableEq, Repr

/-- Abstraction of trace events to the spec's operations (branch tests and
the database open/close bookkeeping of the scoped write are not
operations of the spec's chain). -/
def opTag : Event → Option Op
  | Event.readOne _ => some Op.readStructure
  | Event.readMany _ => some Op.readTrajectory
  | Event.instCalc _ _ _ => some Op.instantiateCalc
  | Event.runCalc => some Op.runComputation
  | Event.nebRunEv _ _ => some Op.runComputation
  | Event.patchMeta => some Op.patchMetadata
  | Event.dbWrite => some Op.persist
  | Event.encodeEv => some Op.encodeReturn
  | _ => none

/-- The spec-level operation sequence of a trace. -/
def opsOf (tr : List Event) : List Op := tr.filterMap opTag

/-- Subsequence test (order-preserving containment). -/
def isSubseqOf : List Op → List Op → Bool
  | [], _ => true
  | _ :: _, [] => false
  | a :: l, b :: m => if a = b then isSubseqOf l m else isSubseqOf (a :: l) m

/-- Modelled from the spec: the fixed linear order `read structure →
instantiate calculator → run computation → read result trajectory → patch
metadata → (optionally) persist → encode/return`; a run follows it when
its operation sequence is an order-preserving selection of this chain
(each step at most once, none out of order). -/
def specLinearOrder : List Op :=
  [Op.readStructure, Op.instantiateCalc, Op.runComputation,
   Op.readTrajectory, Op.patchMetadata, Op.persist, Op.encodeReturn]

/-- A tag in `branchTags` comes from a branch event of the trace. -/
theorem branchTags_mem {tr : List Event} {t : BranchTag} (ht : t ∈ branchTags tr) :
    ∃ b, Event.branch t b ∈ tr := by
  unfold branchTags at ht
  obtain ⟨e, he, hfe⟩ := List.mem_filterMap.1 ht
  cases e <;> simp at hfe
  case branch t' b =>
    subst hfe
    exact ⟨b, he⟩

/-- A trace without branch events has no tags. -/
theorem branchTags_nil {tr : List Event}
    (h : ∀ e ∈ tr, ∀ t b, e ≠ Event.branch t b) : branchTags tr = [] := by
  unfold branchTags
  rw [List.filterMap_eq_nil]
  intro e he
  cases e <;> simp
  case branch t b => exact absurd rfl (h _ he t b)

/-- A trace without database events filters to no database events. -/
theorem dbEvents_nil {tr : List Event}
    (h : ∀ e ∈ tr, e ≠ Event.dbOpen ∧ e ≠ Event.dbWrite ∧ e ≠ Event.dbClose) :
    dbEvents tr = [] := by
  unfold dbEvents
  rw [List.filter_eq_nil]
  intro e he
  simp only [decide_eq_true_eq, not_or]
  exact ⟨(h e he).1, (h e he).2.1, (h e he).2.2⟩

/-- Replacing a present key in place puts the new binding where the key
was. -/
theorem find_map_replace (rest : Dict) (k : String) (v : Value)
    (hmem : rest.any (fun kv => kv.1 = k) = true) :
    (rest.map (fun kv => if kv.1 = k then (k, v) else kv)).find?
      (fun kv => kv.1 = k) = some (k, v) := by
  induction rest with
  | nil => simp at hmem
  | cons kv r ih =>
      by_cases hk : kv.1 = k
      · simp [hk, List.find?_cons]
      · simp only [List.any_cons, hk, decide_False, Bool.false_or] at hmem
        simp only [List.map_cons, if_neg hk]
        rw [List.find?_cons_of_neg _ (by simp [hk])]
        exact ih hmem

/-- Appending a fresh key puts the new binding at the end. -/
theorem find_append_key (rest : Dict) (k : String) (v : Value)
    (hmem : rest.any (fun kv => kv.1 = k) = false) :
    (rest ++ [(k, v)]).find? (fun kv => kv.1 = k) = some (k, v) := by
  induction rest with
  | nil => simp
  | cons kv r ih =>
      simp only [List.any_cons, Bool.or_eq_false_iff, decide_eq_false_iff_not] at hmem
      simp only [List.cons_append]
      rw [List.find?_cons_of_neg _ (by simp [hmem.1])]
      exact ih (by simp [hmem.2])

/-- Setting a key makes it present with the new value. -/
theorem dictGet_dictSet_self (d : Dict) (k : String) (v : Value) :
    dictGet (dictSet d k v) k = some v := by
  unfold dictGet dictSet
  by_cases hmem : d.any (fun kv => kv.1 = k) = true
  · simp [hmem, find_map_replace d k v hmem]
  · have hm : d.any (fun kv => kv.1 = k) = false := by
      cases hb : d.any (fun kv => kv.1 = k)
      · rfl
      · exact absurd hb hmem
    rw [if_neg (by simp [hm])]
    rw [find_append_key d k v hm]
    rfl

/-- Resolution keeps the constraints field. -/
theorem resolveAtoms_constraints (h : Heap) (a : Atoms) :
    (resolveAtoms h a).constraints = a.constraints := rfl

/-- Resolution keeps the pbc field. -/
theorem resolveAtoms_pbc (h : Heap) (a : Atoms) : (resolveAtoms h a).pbc = a.pbc := rfl

/-! ### Concrete fixtures for witnesses and counterexamples -/

/-- A concrete calculator-parameters dict (with the calculator name under
`calculator_name`, as catflow conventions store it). -/
def cpIn : FlatDict :=
  [("calculator_name", Prim.str "decaf.espresso.Espresso"), ("kpts", Prim.int 4)]

/-- A concrete input metadata mapping. -/
def infoIn : PDict :=
  [("calculator_parameters", PValue.dict cpIn),
   ("fmax", PValue.prim (Prim.int 1))]

/-- A concrete slab-like input structure (not periodic in z). -/
def paIn : PAtoms :=
  { positions := [(0, 0, 0)], cell := [(1, 0, 0), (0, 1, 0), (0, 0, 1)],
    pbc := [true, true, false], constraints := [7], energy := none, info := infoIn }

/-- The same structure made fully periodic (bulk). -/
def paBulk : PAtoms := { paIn with pbc := [true, true, true] }

/-- A concrete resymmetrized prototype structure: fully periodic but with
different cell, positions, constraints and metadata than the input. -/
def paProto : PAtoms :=
  { positions := [(0, 0, 0)], cell := [(2, 0, 0), (0, 2, 0), (0, 0, 2)],
    pbc := [true, true, true], constraints := [], energy := none,
    info := [("proto", PValue.prim (Prim.bool true))] }

/-- First trajectory image as the log reader returns it (its constraints,
pbc and metadata differ from the input structure's). -/
def pimg0 : PAtoms :=
  { positions := [(0, 0, 0)], cell := [(1, 0, 0), (0, 1, 0), (0, 0, 1)],
    pbc := [false, false, false], constraints := [9], energy := some 5,
    info := [("step", PValue.prim (Prim.int 0))] }

/-- Second trajectory image as the log reader returns it. -/
def pimg1 : PAtoms :=
  { pimg0 with
      positions := [(1, 1, 1)]
      energy := some 6
      info := [("step", PValue.prim (Prim.int 1))] }

/-- A concrete oracle for the external collaborators: every call
succeeds, `input.traj` holds the slab structure, every trajectory read
returns the two images above, the resolved calculator is a
`decaf.Espresso`, and the prototype call returns `paProto`. -/
def extD : Oracle :=
  { readFile := fun p => if p = "input.traj" then Except.ok paIn
      else Except.error (Err.fileNotFound p)
    readTraj := fun p =>
      if p = "pw0.pwo" ∨ p = "pw.pwo" ∨ p = "ML-NEB.traj" then Except.ok [pimg0, pimg1]
      else Except.error (Err.fileNotFound p)
    decafReadTraj := fun p =>
      if p = "pw0.pwo" ∨ p = "pw.pwo" ∨ p = "ML-NEB.traj" then Except.ok [pimg0, pimg1]
      else Except.error (Err.fileNotFound p)
    decafAvailable := true
    ckutilAvailable := true
    strToClass := fun c => Except.ok c
    isEspresso := fun c => c = "decaf.espresso.Espresso"
    calcRun := fun _ a => Except.ok { positions := a.positions, energy := 42 }
    prototype := fun _ _ => Except.ok ("A1", paProto)
    nebInit := fun _ _ _ _ _ _ => Except.ok ()
    nebRun := fun _ _ => Except.ok ()
    dbUpdate := fun _ => Except.ok ()
    encode := fun _ => "encoded" }

/-- The concrete oracle with a fully periodic (bulk) input file. -/
def extDbulk : Oracle :=
  { extD with readFile := fun p => if p = "input.traj" then Except.ok paBulk
      else Except.error (Err.fileNotFound p) }

/-- The empty start state. -/
def st0 : St := { heap := Heap.empty, trace := [] }

/-- The images of a run's result (empty when the run raised). -/
def runImages (r : Except Err (String × List Atoms) × St) : List Atoms :=
  (r.1.toOption.getD ("", [])).2

/-- The input structure brought onto an empty heap (concrete fixture). -/
def h0c : Heap := (allocAtoms Heap.empty paIn).1

/-- The concrete heap-resident input structure. -/
def a0c : Atoms := (allocAtoms Heap.empty paIn).2

/-- The concrete calculator name stored in the fixtures. -/
def cnameC : String := "decaf.espresso.Espresso"

/-! ### Claim theorems -/

/-- C8: `run_mlneb` reads a force-convergence threshold from the input
structure's metadata (`atoms.info['fmax']`) but always invokes the NEB
run with the fixed threshold `0.05` (= 1/20), so whatever value is stored
under `'fmax'` the NEB run's threshold argument is 1/20 — the stored
value has no effect on it — while the absence of the key makes the
function raise a KeyError. -/
theorem C8_run_mlneb_fixed_fmax (ext : Oracle)
    (start_file end_file out_file : String) (n_images : Nat)
    (interpolation : String) (restart : Bool)
    (h0 : Heap) (pa : PAtoms) (cls : String) (pimgs : List PAtoms)
    (hread : ext.readFile start_file = Except.ok pa)
    (hstc : ext.strToClass "catlearn.optimize.mlneb.MLNEB" = Except.ok cls)
    (hni : ext.nebInit start_file end_file
      (resolveInfo (allocAtoms h0 pa).1 (allocAtoms h0 pa).2.infoRef)
      n_images interpolation restart = Except.ok ())
    (hnr : ext.nebRun mlnebFmax out_file = Except.ok ())
    (hdec : ext.decafAvailable = true)
    (hrdt : ext.decafReadTraj out_file = Except.ok pimgs) :
    (∀ v : Value, dictGet (allocPDict h0 pa.info).2 "fmax" = some v →
      nebFmaxes (run_mlneb ext start_file end_file out_file n_images interpolation
        restart { heap := h0, trace := [] }).2.trace = [1 / 20]) ∧
    (dictGet (allocPDict h0 pa.info).2 "fmax" = none →
      (run_mlneb ext start_file end_file out_file n_images interpolation
        restart { heap := h0, trace := [] }).1 =
        Except.error (Err.keyError "fmax")) := by
  constructor
  · intro v hfm
    rw [run_mlneb_run ext start_file end_file out_file n_images interpolation restart
      h0 pa cls v pimgs hread hstc hni hfm hnr hdec hrdt]
    simp [nebFmaxes, mlnebFmax]
  · intro hfm
    simp only [run_mlneb, run_bind, run_emit, run_liftE, run_pure, run_heapOp,
      run_getHeap, getFmax, requireModule, addEvent, hread, hstc,
      allocAtoms_cells_self, Option.getD_some, hni, hfm,
      List.nil_append, List.cons_append, List.append_assoc]

/-- Witness for C8 at the concrete oracle: the stored value 1/10 is
ignored and the NEB run threshold is 1/20. -/
theorem C8_run_mlneb_fixed_fmax_witness :
    nebFmaxes (run_mlneb extD "input.traj" "final.traj" "ML-NEB.traj" 11 "idpp" false
      { heap := Heap.empty, trace := [] }).2.trace = [1 / 20] :=
  (C8_run_mlneb_fixed_fmax extD "input.traj" "final.traj" "ML-NEB.traj" 11 "idpp"
    false Heap.empty paIn "catlearn.optimize.mlneb.MLNEB" [pimg0, pimg1]
    (by decide) rfl rfl rfl rfl (by decide)).1
    (Value.prim (Prim.int 1)) (by decide)

/-- C3: `catflow_relaxation` opens the database connection with a scoped
(with-block) pattern and performs exactly one write per successful
relaxation — its database events are exactly open, write, close; when the
relaxation call raises, the function propagates the error and no database
event happens at all; and no run of `get_potential_energy` or `run_mlneb`
ever produces a database event. -/
theorem C3_database_discipline :
    (∀ (ext : Oracle) (atoms? : Option Atoms) (calculator_name? : Option String)
      (parameters? : Option Nat) (h0 h1 h2 h4 : Heap) (atoms0 : Atoms)
      (trA trB : List Event) (pref : Nat) (cname : String) (infoD : Dict)
      (cls : String) (params0 : Dict) (res : CalcRes) (ca : Calc × Atoms)
      (pimgs : List PAtoms) (i0 : Atoms) (irest : List Atoms)
      (imagesF : List Atoms),
      (∀ t, defaultAtoms ext atoms? { heap := h0, trace := t } =
        (Except.ok atoms0, { heap := h1, trace := t ++ trA })) →
      (∀ t, defaultParams atoms0.infoRef parameters? { heap := h1, trace := t } =
        (Except.ok pref, { heap := h1, trace := t })) →
      (∀ t, defaultCalculatorName pref calculator_name? { heap := h1, trace := t } =
        (Except.ok cname, { heap := h2, trace := t })) →
      h2.cells atoms0.infoRef = some infoD →
      ext.strToClass cname = Except.ok cls →
      (h2.alloc infoD).1.cells pref = some params0 →
      ext.calcRun (Calc.mk cls (some "pw0.pwi") params0) atoms0 = Except.ok res →
      (∀ t, maybeResymmetrize ext cls pref (Calc.mk cls (some "pw0.pwi") params0)
        (applyCalc atoms0 res) { heap := (h2.alloc infoD).1, trace := t } =
        (Except.ok ca, { heap := h4, trace := t ++ trB })) →
      ext.decafAvailable = true →
      (if ext.isEspresso ca.1.cls then ext.decafReadTraj "pw0.pwo"
        else ext.readTraj "pw0.pwo") = Except.ok pimgs →
      (allocImages h4 pimgs).2 = i0 :: irest →
      ((if ca.2.pbc.all id then
          { i0 with infoRef := (h2.alloc infoD).2 } :: (irest ++ [ca.2])
        else
          { i0 with infoRef := (h2.alloc infoD).2 } :: irest).map
          (patchImage ca.2)) = imagesF →
      ext.dbUpdate (imagesF.map (resolveAtoms (allocImages h4 pimgs).1)) =
        Except.ok () →
      dbEvents trA = [] → dbEvents trB = [] →
      dbEvents (catflow_relaxation ext atoms? calculator_name? parameters?
        { heap := h0, trace := [] }).2.trace =
        [Event.dbOpen, Event.dbWrite, Event.dbClose]) ∧
    (∀ (ext : Oracle) (atoms? : Option Atoms) (calculator_name? : Option String)
      (parameters? : Option Nat) (h0 h1 h2 : Heap) (atoms0 : Atoms)
      (trA : List Event) (pref : Nat) (cname : String) (infoD : Dict)
      (cls : String) (params0 : Dict) (e : Err),
      (∀ t, defaultAtoms ext atoms? { heap := h0, trace := t } =
        (Except.ok atoms0, { heap := h1, trace := t ++ trA })) →
      (∀ t, defaultParams atoms0.infoRef parameters? { heap := h1, trace := t } =
        (Except.ok pref, { heap := h1, trace := t })) →
      (∀ t, defaultCalculatorName pref calculator_name? { heap := h1, trace := t } =
        (Except.ok cname, { heap := h2, trace := t })) →
      h2.cells atoms0.infoRef = some infoD →
      ext.strToClass cname = Except.ok cls →
      (h2.alloc infoD).1.cells pref = some params0 →
      ext.calcRun (Calc.mk cls (some "pw0.pwi") params0) atoms0 = Except.error e →
      dbEvents trA = [] →
      (catflow_relaxation ext atoms? calculator_name? parameters?
        { heap := h0, trace := [] }).1 = Except.error e ∧
      dbEvents (catflow_relaxation ext atoms? calculator_name? parameters?
        { heap := h0, trace := [] }).2.trace = []) ∧
    (∀ (ext : Oracle) (calculator in_file out_file : String) (h0 : Heap),
      dbEvents (get_potential_energy ext calculator in_file out_file
        { heap := h0, trace := [] }).2.trace = []) ∧
    (∀ (ext : Oracle) (start_file end_file out_file : String) (n_images : Nat)
      (interpolation : String) (restart : Bool) (h0 : Heap),
      dbEvents (run_mlneb ext start_file end_file out_file n_images interpolation
        restart { heap := h0, trace := [] }).2.trace = []) := by
  refine ⟨?_, ?_, ?_, ?_⟩
  · intro ext atoms? calculator_name? parameters? h0 h1 h2 h4 atoms0 trA trB pref
      cname infoD cls params0 res ca pimgs i0 irest imagesF hda hdp hdcn hi hstc
      hp0 hrun hmr hdec hrdt hne himgs hdb htrA htrB
    rw [catflow_relaxation_run ext atoms? calculator_name? parameters? h0 h1 h2 h4
      atoms0 trA trB pref cname infoD cls params0 res ca pimgs i0 irest imagesF
      hda hdp hdcn hi hstc hp0 hrun hmr hdec hrdt hne himgs hdb]
    unfold dbEvents at htrA htrB ⊢
    simp only [Bool.decide_or] at htrA htrB
    simp [List.filter_append, htrA, htrB]
  · intro ext atoms? calculator_name? parameters? h0 h1 h2 atoms0 trA pref cname
      infoD cls params0 e hda hdp hdcn hi hstc hp0 hrun htrA
    have hrw : catflow_relaxation ext atoms? calculator_name? parameters?
        { heap := h0, trace := [] } =
        (Except.error e,
         { heap := (h2.alloc infoD).1,
           trace := Event.branch BranchTag.atomsIsNone atoms?.isNone ::
             (trA ++ [Event.branch BranchTag.parametersIsNone parameters?.isNone,
               Event.branch BranchTag.calculatorNameIsNone calculator_name?.isNone,
               Event.instCalc cls (some "pw0.pwi") params0,
               Event.runCalc]) }) := by
      simp only [catflow_relaxation, run_bind, run_emit, run_liftE, run_pure,
        run_heapOp, run_getHeap, readCell, addEvent,
        hda, hdp, hdcn, hi, hstc, hp0, hrun,
        List.nil_append, List.cons_append, List.append_assoc, List.append_nil]
    rw [hrw]
    refine ⟨rfl, ?_⟩
    unfold dbEvents at htrA ⊢
    simp only [Bool.decide_or] at htrA
    simp [List.filter_append, htrA]
  · intro ext calculator in_file out_file h0
    obtain ⟨tr, htr, hall⟩ :=
      emits_get_potential_energy ext calculator in_file out_file
        { heap := h0, trace := [] }
    rw [htr]
    apply dbEvents_nil
    intro e he
    have hv := hall e (by simpa using he)
    cases e <;> simp_all [GpeVocab]
  · intro ext start_file end_file out_file n_images interpolation restart h0
    obtain ⟨tr, htr, hall⟩ :=
      emits_run_mlneb ext start_file end_file out_file n_images interpolation
        restart { heap := h0, trace := [] }
    rw [htr]
    apply dbEvents_nil
    intro e he
    have hv := hall e (by simpa using he)
    cases e <;> simp_all [MlnebVocab]

/-- Concrete allocated info dict of the input structure. -/
def infoDc : Dict :=
  [("calculator_parameters", Value.ref 0), ("fmax", Value.prim (Prim.int 1))]

/-- Concrete calculator-parameters dict cell contents. -/
def params0c : Dict :=
  [("calculator_name", Value.prim (Prim.str cnameC)), ("kpts", Value.prim (Prim.int 4))]

/-- Concrete calculator result on the fixture input. -/
def resC : CalcRes := { positions := paIn.positions, energy := 42 }

/-- Concrete calculator/structure pair after the (skipped) resymmetrization. -/
def caC : Calc × Atoms := (Calc.mk cnameC (some "pw0.pwi") params0c, applyCalc a0c resC)

/-- Concrete heap after the `data` copy allocation. -/
def h4c : Heap := (h0c.alloc infoDc).1

/-- First reader image brought onto the concrete heap. -/
def i0c : Atoms :=
  { positions := pimg0.positions, cell := pimg0.cell, pbc := pimg0.pbc,
    constraints := pimg0.constraints, energy := pimg0.energy, infoRef := 3 }

/-- Second reader image brought onto the concrete heap. -/
def i1c : Atoms :=
  { positions := pimg1.positions, cell := pimg1.cell, pbc := pimg1.pbc,
    constraints := pimg1.constraints, energy := pimg1.energy, infoRef := 4 }

/-- The concrete output images of the fixture relaxation. -/
def imagesFc : List Atoms :=
  [patchImage caC.2 { i0c with infoRef := 2 }, patchImage caC.2 i1c]

/-- Witness for C3 at the concrete oracle: one scoped write on success. -/
theorem C3_database_discipline_witness :
    dbEvents (catflow_relaxation extD (some a0c) (some cnameC) (some 0)
      { heap := h0c, trace := [] }).2.trace =
      [Event.dbOpen, Event.dbWrite, Event.dbClose] :=
  C3_database_discipline.1 extD (some a0c) (some cnameC) (some 0)
    h0c h0c h0c h4c a0c [] [] 0 cnameC infoDc cnameC params0c resC caC
    [pimg0, pimg1] i0c [i1c] imagesFc
    (fun t => by simp [defaultAtoms])
    (fun t => rfl)
    (fun t => rfl)
    (by decide)
    rfl
    (by decide)
    rfl
    (fun t => by
      rw [maybeResymmetrize_nonbulk _ _ _ _ _ _ (by decide)]
      simp [h4c, caC])
    rfl
    (by decide)
    (by decide)
    (by decide)
    rfl
    rfl
    rfl

/-- C5 counterexample: the claim says the only conditional branches
executed test the periodic flags and the calculator type, but every run
of `catflow_relaxation` also executes the `atoms is None` test (here with
the argument given, so the branch is recorded as not taken). -/
theorem C5_branches_counterexample :
    Event.branch BranchTag.atomsIsNone false ∈
      (catflow_relaxation extD (some a0c) (some cnameC) (some 0)
        { heap := h0c, trace := [] }).2.trace ∧
    ¬ (BranchTag.atomsIsNone = BranchTag.pbcAll ∨
       BranchTag.atomsIsNone = BranchTag.isinstanceEspresso) := by
  decide

/-- C5 as amended: the conditional tests each function executes are
exactly from its own small set — `get_potential_energy` only the
calculator-type (`isinstance`) test, `run_mlneb` none at all, and
`catflow_relaxation` only the three argument-is-None defaulting tests,
the periodic-flags test and the calculator-type test. -/
theorem C5_branch_tags :
    (∀ (ext : Oracle) (calculator in_file out_file : String) (h0 : Heap)
      (t : BranchTag),
      t ∈ branchTags (get_potential_energy ext calculator in_file out_file
        { heap := h0, trace := [] }).2.trace →
      t = BranchTag.isinstanceEspresso) ∧
    (∀ (ext : Oracle) (start_file end_file out_file : String) (n_images : Nat)
      (interpolation : String) (restart : Bool) (h0 : Heap),
      branchTags (run_mlneb ext start_file end_file out_file n_images
        interpolation restart { heap := h0, trace := [] }).2.trace = []) ∧
    (∀ (ext : Oracle) (atoms? : Option Atoms) (calculator_name? : Option String)
      (parameters? : Option Nat) (h0 : Heap) (t : BranchTag),
      t ∈ branchTags (catflow_relaxation ext atoms? calculator_name? parameters?
        { heap := h0, trace := [] }).2.trace →
      t = BranchTag.atomsIsNone ∨ t = BranchTag.parametersIsNone ∨
      t = BranchTag.calculatorNameIsNone ∨ t = BranchTag.pbcAll ∨
      t = BranchTag.isinstanceEspresso) := by
  refine ⟨?_, ?_, ?_⟩
  · intro ext calculator in_file out_file h0 t ht
    obtain ⟨tr, htr, hall⟩ :=
      emits_get_potential_energy ext calculator in_file out_file
        { heap := h0, trace := [] }
    rw [htr] at ht
    obtain ⟨b, hb⟩ := branchTags_mem ht
    have hv := hall _ (by simpa using hb)
    simpa [GpeVocab] using hv
  · intro ext start_file end_file out_file n_images interpolation restart h0
    obtain ⟨tr, htr, hall⟩ :=
      emits_run_mlneb ext start_file end_file out_file n_images interpolation
        restart { heap := h0, trace := [] }
    rw [htr]
    have : branchTags tr = [] := by
      apply branchTags_nil
      intro e he t b hbt
      have hv := hall e he
      rw [hbt] at hv
      simp [MlnebVocab] at hv
    simpa [branchTags] using this
  · intro ext atoms? calculator_name? parameters? h0 t ht
    obtain ⟨tr, htr, hall⟩ :=
      emits_catflow_relaxation ext atoms? calculator_name? parameters?
        { heap := h0, trace := [] }
    rw [htr] at ht
    obtain ⟨b, hb⟩ := branchTags_mem ht
    have hv := hall _ (by simpa using hb)
    simpa [CfVocab] using hv

/-- Witness for the amended C5, exercising the catflow conjunct on a
concrete defaulted run whose trace records an `atoms is None` test. -/
theorem C5_branch_tags_witness :
    BranchTag.atomsIsNone = BranchTag.atomsIsNone ∨
    BranchTag.atomsIsNone = BranchTag.parametersIsNone ∨
    BranchTag.atomsIsNone = BranchTag.calculatorNameIsNone ∨
    BranchTag.atomsIsNone = BranchTag.pbcAll ∨
    BranchTag.atomsIsNone = BranchTag.isinstanceEspresso :=
  C5_branch_tags.2.2 extD none none none Heap.empty BranchTag.atomsIsNone
    (by decide)

/-- The trajectory-file parameters of each function's signature with the
default each declares, read off the source signatures: lines 13-16 for
`get_potential_energy`, lines 115-118 for `run_mlneb`; the signature of
`catflow_relaxation` (line 55) has no file parameter at all. -/
def gpeFileParamDefaults : List (String × String) :=
  [("in_file", "input.traj"), ("out_file", "pw.pwo")]

/-- Trajectory-file parameters and defaults of `run_mlneb`. -/
def mlnebFileParamDefaults : List (String × String) :=
  [("start_file", "input.traj"), ("end_file", "final.traj"),
   ("out_file", "ML-NEB.traj")]

/-- Trajectory-file parameters of `catflow_relaxation`: there are none. -/
def catflowFileParamDefaults : List (String × String) := []

/-- C7 counterexample: `catflow_relaxation` reads the trajectory files
`input.traj` and `pw0.pwo` although its signature has no trajectory-file
parameter, so not all trajectory-file inputs/outputs of the module's
functions are named parameters with fixed defaults. -/
theorem C7_counterexample :
    readPaths (catflow_relaxation extD none none none
      { heap := Heap.empty, trace := [] }).2.trace = ["input.traj", "pw0.pwo"] ∧
    catflowFileParamDefaults = [] ∧
    ¬ (∀ p ∈ readPaths (catflow_relaxation extD none none none
        { heap := Heap.empty, trace := [] }).2.trace,
        p ∈ catflowFileParamDefaults.map Prod.snd) := by
  decide

/-- C7 as amended: `get_potential_energy` and `run_mlneb` take their
trajectory files as named parameters with exactly the stated defaults,
and calling them without these arguments reads exactly those paths
(`run_mlneb` itself reads its start and output files; the end file is
only handed to the NEB engine); `catflow_relaxation` takes no file
parameter and reads the fixed hardcoded paths `input.traj` (when `atoms`
is None) and `pw0.pwo`. -/
theorem C7_file_defaults :
    (∀ (ext : Oracle) (calculator : String),
      get_potential_energy ext calculator =
        get_potential_energy ext calculator "input.traj" "pw.pwo") ∧
    (∀ ext : Oracle, run_mlneb ext =
      run_mlneb ext "input.traj" "final.traj" "ML-NEB.traj" 11 "idpp" false) ∧
    gpeFileParamDefaults.map Prod.snd = ["input.traj", "pw.pwo"] ∧
    mlnebFileParamDefaults.map Prod.snd =
      ["input.traj", "final.traj", "ML-NEB.traj"] ∧
    (∀ (ext : Oracle) (calculator : String) (h0 : Heap) (pa : PAtoms)
      (cls : String) (pref : Nat) (params : Dict) (res : CalcRes)
      (pimgs : List PAtoms),
      ext.readFile "input.traj" = Except.ok pa →
      ext.strToClass calculator = Except.ok cls →
      dictGet (allocPDict h0 pa.info).2 "calculator_parameters" =
        some (Value.ref pref) →
      (allocAtoms h0 pa).1.cells pref = some params →
      ext.calcRun (Calc.mk cls none params) (allocAtoms h0 pa).2 = Except.ok res →
      ext.decafAvailable = true →
      (if ext.isEspresso cls then ext.decafReadTraj "pw.pwo"
        else ext.readTraj "pw.pwo") = Except.ok pimgs →
      readPaths (get_potential_energy ext calculator "input.traj" "pw.pwo"
        { heap := h0, trace := [] }).2.trace = ["input.traj", "pw.pwo"]) ∧
    (∀ (ext : Oracle) (h0 : Heap) (pa : PAtoms) (cls : String) (v : Value)
      (pimgs : List PAtoms),
      ext.readFile "input.traj" = Except.ok pa →
      ext.strToClass "catlearn.optimize.mlneb.MLNEB" = Except.ok cls →
      ext.nebInit "input.traj" "final.traj"
        (resolveInfo (allocAtoms h0 pa).1 (allocAtoms h0 pa).2.infoRef)
        11 "idpp" false = Except.ok () →
      dictGet (allocPDict h0 pa.info).2 "fmax" = some v →
      ext.nebRun mlnebFmax "ML-NEB.traj" = Except.ok () →
      ext.decafAvailable = true →
      ext.decafReadTraj "ML-NEB.traj" = Except.ok pimgs →
      readPaths (run_mlneb ext "input.traj" "final.traj" "ML-NEB.traj" 11 "idpp"
        false { heap := h0, trace := [] }).2.trace =
        ["input.traj", "ML-NEB.traj"]) ∧
    (∀ (ext : Oracle) (h0 h2 h4 : Heap) (pa : PAtoms) (trB : List Event)
      (pref : Nat) (cname : String) (infoD : Dict) (cls : String)
      (params0 : Dict) (res : CalcRes) (ca : Calc × Atoms) (pimgs : List PAtoms)
      (i0 : Atoms) (irest : List Atoms) (imagesF : List Atoms),
      ext.readFile "input.traj" = Except.ok pa →
      (∀ t, defaultParams (allocAtoms h0 pa).2.infoRef none
        { heap := (allocAtoms h0 pa).1, trace := t } =
        (Except.ok pref, { heap := (allocAtoms h0 pa).1, trace := t })) →
      (∀ t, defaultCalculatorName pref none
        { heap := (allocAtoms h0 pa).1, trace := t } =
        (Except.ok cname, { heap := h2, trace := t })) →
      h2.cells (allocAtoms h0 pa).2.infoRef = some infoD →
      ext.strToClass cname = Except.ok cls →
      (h2.alloc infoD).1.cells pref = some params0 →
      ext.calcRun (Calc.mk cls (some "pw0.pwi") params0) (allocAtoms h0 pa).2 =
        Except.ok res →
      (∀ t, maybeResymmetrize ext cls pref (Calc.mk cls (some "pw0.pwi") params0)
        (applyCalc (allocAtoms h0 pa).2 res) { heap := (h2.alloc infoD).1, trace := t } =
        (Except.ok ca, { heap := h4, trace := t ++ trB })) →
      ext.decafAvailable = true →
      (if ext.isEspresso ca.1.cls then ext.decafReadTraj "pw0.pwo"
        else ext.readTraj "pw0.pwo") = Except.ok pimgs →
      (allocImages h4 pimgs).2 = i0 :: irest →
      ((if ca.2.pbc.all id then
          { i0 with infoRef := (h2.alloc infoD).2 } :: (irest ++ [ca.2])
        else
          { i0 with infoRef := (h2.alloc infoD).2 } :: irest).map
          (patchImage ca.2)) = imagesF →
      ext.dbUpdate (imagesF.map (resolveAtoms (allocImages h4 pimgs).1)) =
        Except.ok () →
      readPaths trB = [] →
      readPaths (catflow_relaxation ext none none none
        { heap := h0, trace := [] }).2.trace = ["input.traj", "pw0.pwo"]) := by
  refine ⟨fun _ _ => rfl, fun _ => rfl, rfl, rfl, ?_, ?_, ?_⟩
  · intro ext calculator h0 pa cls pref params res pimgs hread hstc hcp hpp hrun
      hdec hrdt
    rw [get_potential_energy_run ext calculator "input.traj" "pw.pwo" h0 pa cls
      pref params res pimgs hread hstc hcp hpp hrun hdec hrdt]
    simp [readPaths]
  · intro ext h0 pa cls v pimgs hread hstc hni hfm hnr hdec hrdt
    rw [run_mlneb_run ext "input.traj" "final.traj" "ML-NEB.traj" 11 "idpp" false
      h0 pa cls v pimgs hread hstc hni hfm hnr hdec hrdt]
    simp [readPaths]
  · intro ext h0 h2 h4 pa trB pref cname infoD cls params0 res ca pimgs i0 irest
      imagesF hread hdp hdcn hi hstc hp0 hrun hmr hdec hrdt hne himgs hdb htrB
    rw [catflow_relaxation_run ext none none none h0 (allocAtoms h0 pa).1 h2 h4
      (allocAtoms h0 pa).2 [Event.readOne "input.traj"] trB pref cname infoD cls
      params0 res ca pimgs i0 irest imagesF
      (fun t => defaultAtoms_none_ok ext { heap := h0, trace := t } pa hread)
      hdp hdcn hi hstc hp0 hrun hmr hdec hrdt hne himgs hdb]
    unfold readPaths at htrB ⊢
    simp [List.filterMap_append, htrB]

/-- Witness for the amended C7: a default call of `get_potential_energy`
on the concrete oracle reads exactly `input.traj` and `pw.pwo`. -/
theorem C7_file_defaults_witness :
    readPaths (get_potential_energy extD cnameC "input.traj" "pw.pwo"
      { heap := Heap.empty, trace := [] }).2.trace = ["input.traj", "pw.pwo"] :=
  C7_file_defaults.2.2.2.2.1 extD cnameC Heap.empty paIn cnameC 0 params0c
    resC [pimg0, pimg1] (by decide) rfl (by decide) (by decide) (by decide)
    rfl (by decide)

/-- C2: no function of the module handles errors: a missing input file, an
unavailable optional dependency (the swallowed ImportError resurfacing as
a NameError at the point of use) and a calculator failure each propagate
unmodified out of `get_potential_energy`, `catflow_relaxation` and
`run_mlneb`. -/
theorem C2_errors_propagate :
    (∀ (ext : Oracle) (calculator in_file out_file : String) (h0 : Heap) (e : Err),
      ext.readFile in_file = Except.error e →
      (get_potential_energy ext calculator in_file out_file
        { heap := h0, trace := [] }).1 = Except.error e) ∧
    (∀ (ext : Oracle) (calculator in_file out_file : String) (h0 : Heap)
      (pa : PAtoms) (cls : String) (pref : Nat) (params : Dict) (res : CalcRes),
      ext.readFile in_file = Except.ok pa →
      ext.strToClass calculator = Except.ok cls →
      dictGet (allocPDict h0 pa.info).2 "calculator_parameters" =
        some (Value.ref pref) →
      (allocAtoms h0 pa).1.cells pref = some params →
      ext.calcRun (Calc.mk cls none params) (allocAtoms h0 pa).2 = Except.ok res →
      ext.decafAvailable = false →
      (get_potential_energy ext calculator in_file out_file
        { heap := h0, trace := [] }).1 = Except.error (Err.nameError "decaf")) ∧
    (∀ (ext : Oracle) (calculator in_file out_file : String) (h0 : Heap)
      (pa : PAtoms) (cls : String) (pref : Nat) (params : Dict) (e : Err),
      ext.readFile in_file = Except.ok pa →
      ext.strToClass calculator = Except.ok cls →
      dictGet (allocPDict h0 pa.info).2 "calculator_parameters" =
        some (Value.ref pref) →
      (allocAtoms h0 pa).1.cells pref = some params →
      ext.calcRun (Calc.mk cls none params) (allocAtoms h0 pa).2 = Except.error e →
      (get_potential_energy ext calculator in_file out_file
        { heap := h0, trace := [] }).1 = Except.error e) ∧
    (∀ (ext : Oracle) (h0 : Heap) (e : Err),
      ext.readFile "input.traj" = Except.error e →
      (catflow_relaxation ext none none none { heap := h0, trace := [] }).1 =
        Except.error e) ∧
    (∀ (ext : Oracle) (atoms? : Option Atoms) (calculator_name? : Option String)
      (parameters? : Option Nat) (h0 h1 h2 : Heap) (atoms0 : Atoms)
      (trA : List Event) (pref : Nat) (cname : String) (infoD : Dict)
      (cls : String) (params0 : Dict) (e : Err),
      (∀ t, defaultAtoms ext atoms? { heap := h0, trace := t } =
        (Except.ok atoms0, { heap := h1, trace := t ++ trA })) →
      (∀ t, defaultParams atoms0.infoRef parameters? { heap := h1, trace := t } =
        (Except.ok pref, { heap := h1, trace := t })) →
      (∀ t, defaultCalculatorName pref calculator_name? { heap := h1, trace := t } =
        (Except.ok cname, { heap := h2, trace := t })) →
      h2.cells atoms0.infoRef = some infoD →
      ext.strToClass cname = Except.ok cls →
      (h2.alloc infoD).1.cells pref = some params0 →
      ext.calcRun (Calc.mk cls (some "pw0.pwi") params0) atoms0 = Except.error e →
      (catflow_relaxation ext atoms? calculator_name? parameters?
        { heap := h0, trace := [] }).1 = Except.error e) ∧
    (∀ (ext : Oracle) (atoms? : Option Atoms) (calculator_name? : Option String)
      (parameters? : Option Nat) (h0 h1 h2 h4 : Heap) (atoms0 : Atoms)
      (trA trB : List Event) (pref : Nat) (cname : String) (infoD : Dict)
      (cls : String) (params0 : Dict) (res : CalcRes) (ca : Calc × Atoms),
      (∀ t, defaultAtoms ext atoms? { heap := h0, trace := t } =
        (Except.ok atoms0, { heap := h1, trace := t ++ trA })) →
      (∀ t, defaultParams atoms0.infoRef parameters? { heap := h1, trace := t } =
        (Except.ok pref, { heap := h1, trace := t })) →
      (∀ t, defaultCalculatorName pref calculator_name? { heap := h1, trace := t } =
        (Except.ok cname, { heap := h2, trace := t })) →
      h2.cells atoms0.infoRef = some infoD →
      ext.strToClass cname = Except.ok cls →
      (h2.alloc infoD).1.cells pref = some params0 →
      ext.calcRun (Calc.mk cls (some "pw0.pwi") params0) atoms0 = Except.ok res →
      (∀ t, maybeResymmetrize ext cls pref (Calc.mk cls (some "pw0.pwi") params0)
        (applyCalc atoms0 res) { heap := (h2.alloc infoD).1, trace := t } =
        (Except.ok ca, { heap := h4, trace := t ++ trB })) →
      ext.decafAvailable = false →
      (catflow_relaxation ext atoms? calculator_name? parameters?
        { heap := h0, trace := [] }).1 = Except.error (Err.nameError "decaf")) ∧
    (∀ (ext : Oracle) (start_file end_file out_file : String) (n_images : Nat)
      (interpolation : String) (restart : Bool) (h0 : Heap) (e : Err),
      ext.readFile start_file = Except.error e →
      (run_mlneb ext start_file end_file out_file n_images interpolation restart
        { heap := h0, trace := [] }).1 = Except.error e) ∧
    (∀ (ext : Oracle) (start_file end_file out_file : String) (n_images : Nat)
      (interpolation : String) (restart : Bool) (h0 : Heap) (pa : PAtoms)
      (cls : String) (v : Value) (e : Err),
      ext.readFile start_file = Except.ok pa →
      ext.strToClass "catlearn.optimize.mlneb.MLNEB" = Except.ok cls →
      ext.nebInit start_file end_file
        (resolveInfo (allocAtoms h0 pa).1 (allocAtoms h0 pa).2.infoRef)
        n_images interpolation restart = Except.ok () →
      dictGet (allocPDict h0 pa.info).2 "fmax" = some v →
      ext.nebRun mlnebFmax out_file = Except.error e →
      (run_mlneb ext start_file end_file out_file n_images interpolation restart
        { heap := h0, trace := [] }).1 = Except.error e) ∧
    (∀ (ext : Oracle) (start_file end_file out_file : String) (n_images : Nat)
      (interpolation : String) (restart : Bool) (h0 : Heap) (pa : PAtoms)
      (cls : String) (v : Value),
      ext.readFile start_file = Except.ok pa →
      ext.strToClass "catlearn.optimize.mlneb.MLNEB" = Except.ok cls →
      ext.nebInit start_file end_file
        (resolveInfo (allocAtoms h0 pa).1 (allocAtoms h0 pa).2.infoRef)
        n_images interpolation restart = Except.ok () →
      dictGet (allocPDict h0 pa.info).2 "fmax" = some v →
      ext.nebRun mlnebFmax out_file = Except.ok () →
      ext.decafAvailable = false →
      (run_mlneb ext start_file end_file out_file n_images interpolation restart
        { heap := h0, trace := [] }).1 = Except.error (Err.nameError "decaf")) := by
  refine ⟨?_, ?_, ?_, ?_, ?_, ?_, ?_, ?_, ?_⟩
  · intro ext calculator in_file out_file h0 e hread
    simp only [get_potential_energy, run_bind, run_emit, run_liftE, addEvent, hread]
  · intro ext calculator in_file out_file h0 pa cls pref params res hread hstc
      hcp hpp hrun hdec
    simp only [get_potential_energy, run_bind, run_emit, run_liftE, run_pure,
      run_heapOp, run_getHeap, readCell, getParamsRef, requireModule, addEvent,
      hread, hstc, allocAtoms_cells_self, hcp, hpp, hrun, hdec]
  · intro ext calculator in_file out_file h0 pa cls pref params e hread hstc
      hcp hpp hrun
    simp only [get_potential_energy, run_bind, run_emit, run_liftE, run_pure,
      run_heapOp, run_getHeap, readCell, getParamsRef, requireModule, addEvent,
      hread, hstc, allocAtoms_cells_self, hcp, hpp, hrun]
  · intro ext h0 e hread
    simp only [catflow_relaxation, run_bind, run_emit, run_liftE, defaultAtoms,
      addEvent, hread]
  · intro ext atoms? calculator_name? parameters? h0 h1 h2 atoms0 trA pref cname
      infoD cls params0 e hda hdp hdcn hi hstc hp0 hrun
    simp only [catflow_relaxation, run_bind, run_emit, run_liftE, run_pure,
      run_heapOp, run_getHeap, readCell, addEvent,
      hda, hdp, hdcn, hi, hstc, hp0, hrun]
  · intro ext atoms? calculator_name? parameters? h0 h1 h2 h4 atoms0 trA trB pref
      cname infoD cls params0 res ca hda hdp hdcn hi hstc hp0 hrun hmr hdec
    simp only [catflow_relaxation, run_bind, run_emit, run_liftE, run_pure,
      run_heapOp, run_getHeap, readCell, requireModule, addEvent,
      hda, hdp, hdcn, hi, hstc, hp0, hrun, hmr, hdec]
  · intro ext start_file end_file out_file n_images interpolation restart h0 e
      hread
    simp only [run_mlneb, run_bind, run_emit, run_liftE, addEvent, hread]
  · intro ext start_file end_file out_file n_images interpolation restart h0 pa
      cls v e hread hstc hni hfm hnr
    simp only [run_mlneb, run_bind, run_emit, run_liftE, run_pure, run_heapOp,
      run_getHeap, getFmax, requireModule, addEvent, hread, hstc,
      allocAtoms_cells_self, Option.getD_some, hni, hfm, hnr]
  · intro ext start_file end_file out_file n_images interpolation restart h0 pa
      cls v hread hstc hni hfm hnr hdec
    simp only [run_mlneb, run_bind, run_emit, run_liftE, run_pure, run_heapOp,
      run_getHeap, getFmax, requireModule, addEvent, hread, hstc,
      allocAtoms_cells_self, Option.getD_some, hni, hfm, hnr, hdec]

/-- Witness for C2: a missing input file propagates its FileNotFound error
out of `get_potential_energy` unmodified. -/
theorem C2_errors_propagate_witness :
    (get_potential_energy extD cnameC "missing.traj" "pw.pwo"
      { heap := Heap.empty, trace := [] }).1 =
      Except.error (Err.fileNotFound "missing.traj") :=
  C2_errors_propagate.1 extD cnameC "missing.traj" "pw.pwo" Heap.empty
    (Err.fileNotFound "missing.traj") (by decide)

/-- Modelled from the spec, extended as the code requires: in the fully
periodic branch of `catflow_relaxation` the instantiate-calculator and
run-computation steps happen a second time (for the final scf run)
between the first run and the trajectory read. -/
def extendedLinearOrder : List Op :=
  [Op.readStructure, Op.instantiateCalc, Op.runComputation,
   Op.instantiateCalc, Op.runComputation,
   Op.readTrajectory, Op.patchMetadata, Op.persist, Op.encodeReturn]

/-- C6 counterexample: a successful fully-periodic `catflow_relaxation`
run instantiates and runs the calculator twice, so its operation sequence
is not an order-preserving selection of the spec's single linear chain. -/
theorem C6_linear_order_counterexample :
    (catflow_relaxation extDbulk none none none
      { heap := Heap.empty, trace := [] }).1.toOption ≠ none ∧
    isSubseqOf (opsOf (catflow_relaxation extDbulk none none none
      { heap := Heap.empty, trace := [] }).2.trace) specLinearOrder = false := by
  decide

/-- C6 as amended: each successful run's operations follow the spec's
linear order, except that `catflow_relaxation`'s fully periodic branch
repeats the instantiate+run pair once for the scf step; outside that
branch `catflow_relaxation` follows the plain linear order too. -/
theorem C6_linear_order :
    (∀ (ext : Oracle) (calculator in_file out_file : String) (h0 : Heap)
      (pa : PAtoms) (cls : String) (pref : Nat) (params : Dict) (res : CalcRes)
      (pimgs : List PAtoms),
      ext.readFile in_file = Except.ok pa →
      ext.strToClass calculator = Except.ok cls →
      dictGet (allocPDict h0 pa.info).2 "calculator_parameters" =
        some (Value.ref pref) →
      (allocAtoms h0 pa).1.cells pref = some params →
      ext.calcRun (Calc.mk cls none params) (allocAtoms h0 pa).2 = Except.ok res →
      ext.decafAvailable = true →
      (if ext.isEspresso cls then ext.decafReadTraj out_file
        else ext.readTraj out_file) = Except.ok pimgs →
      isSubseqOf (opsOf (get_potential_energy ext calculator in_file out_file
        { heap := h0, trace := [] }).2.trace) specLinearOrder = true) ∧
    (∀ (ext : Oracle) (start_file end_file out_file : String) (n_images : Nat)
      (interpolation : String) (restart : Bool) (h0 : Heap) (pa : PAtoms)
      (cls : String) (v : Value) (pimgs : List PAtoms),
      ext.readFile start_file = Except.ok pa →
      ext.strToClass "catlearn.optimize.mlneb.MLNEB" = Except.ok cls →
      ext.nebInit start_file end_file
        (resolveInfo (allocAtoms h0 pa).1 (allocAtoms h0 pa).2.infoRef)
        n_images interpolation restart = Except.ok () →
      dictGet (allocPDict h0 pa.info).2 "fmax" = some v →
      ext.nebRun mlnebFmax out_file = Except.ok () →
      ext.decafAvailable = true →
      ext.decafReadTraj out_file = Except.ok pimgs →
      isSubseqOf (opsOf (run_mlneb ext start_file end_file out_file n_images
        interpolation restart { heap := h0, trace := [] }).2.trace)
        specLinearOrder = true) ∧
    (∀ (ext : Oracle) (atoms? : Option Atoms) (calculator_name? : Option String)
      (parameters? : Option Nat) (h0 h1 h2 h4 : Heap) (atoms0 : Atoms)
      (trA trB : List Event) (pref : Nat) (cname : String) (infoD : Dict)
      (cls : String) (params0 : Dict) (res : CalcRes) (ca : Calc × Atoms)
      (pimgs : List PAtoms) (i0 : Atoms) (irest : List Atoms)
      (imagesF : List Atoms),
      (∀ t, defaultAtoms ext atoms? { heap := h0, trace := t } =
        (Except.ok atoms0, { heap := h1, trace := t ++ trA })) →
      (∀ t, defaultParams atoms0.infoRef parameters? { heap := h1, trace := t } =
        (Except.ok pref, { heap := h1, trace := t })) →
      (∀ t, defaultCalculatorName pref calculator_name? { heap := h1, trace := t } =
        (Except.ok cname, { heap := h2, trace := t })) →
      h2.cells atoms0.infoRef = some infoD →
      ext.strToClass cname = Except.ok cls →
      (h2.alloc infoD).1.cells pref = some params0 →
      ext.calcRun (Calc.mk cls (some "pw0.pwi") params0) atoms0 = Except.ok res →
      (∀ t, maybeResymmetrize ext cls pref (Calc.mk cls (some "pw0.pwi") params0)
        (applyCalc atoms0 res) { heap := (h2.alloc infoD).1, trace := t } =
        (Except.ok ca, { heap := h4, trace := t ++ trB })) →
      ext.decafAvailable = true →
      (if ext.isEspresso ca.1.cls then ext.decafReadTraj "pw0.pwo"
        else ext.readTraj "pw0.pwo") = Except.ok pimgs →
      (allocImages h4 pimgs).2 = i0 :: irest →
      ((if ca.2.pbc.all id then
          { i0 with infoRef := (h2.alloc infoD).2 } :: (irest ++ [ca.2])
        else
          { i0 with infoRef := (h2.alloc infoD).2 } :: irest).map
          (patchImage ca.2)) = imagesF →
      ext.dbUpdate (imagesF.map (resolveAtoms (allocImages h4 pimgs).1)) =
        Except.ok () →
      (opsOf trA = [] ∨ opsOf trA = [Op.readStructure]) →
      (opsOf trB = [] ∨ opsOf trB = [Op.instantiateCalc, Op.runComputation]) →
      isSubseqOf (opsOf (catflow_relaxation ext atoms? calculator_name?
        parameters? { heap := h0, trace := [] }).2.trace)
        extendedLinearOrder = true ∧
      (opsOf trB = [] →
        isSubseqOf (opsOf (catflow_relaxation ext atoms? calculator_name?
          parameters? { heap := h0, trace := [] }).2.trace)
          specLinearOrder = true)) := by
  refine ⟨?_, ?_, ?_⟩
  · intro ext calculator in_file out_file h0 pa cls pref params res pimgs hread
      hstc hcp hpp hrun hdec hrdt
    rw [get_potential_energy_run ext calculator in_file out_file h0 pa cls
      pref params res pimgs hread hstc hcp hpp hrun hdec hrdt]
    simp [opsOf, opTag, isSubseqOf, specLinearOrder]
  · intro ext start_file end_file out_file n_images interpolation restart h0 pa
      cls v pimgs hread hstc hni hfm hnr hdec hrdt
    rw [run_mlneb_run ext start_file end_file out_file n_images interpolation
      restart h0 pa cls v pimgs hread hstc hni hfm hnr hdec hrdt]
    simp [opsOf, opTag, isSubseqOf, specLinearOrder]
  · intro ext atoms? calculator_name? parameters? h0 h1 h2 h4 atoms0 trA trB pref
      cname infoD cls params0 res ca pimgs i0 irest imagesF hda hdp hdcn hi hstc
      hp0 hrun hmr hdec hrdt hne himgs hdb hta htb
    rw [catflow_relaxation_run ext atoms? calculator_name? parameters? h0 h1 h2 h4
      atoms0 trA trB pref cname infoD cls params0 res ca pimgs i0 irest imagesF
      hda hdp hdcn hi hstc hp0 hrun hmr hdec hrdt hne himgs hdb]
    unfold opsOf at hta htb ⊢
    constructor
    · simp only [List.filterMap_cons, List.filterMap_append, opTag]
      rcases hta with h | h <;> rcases htb with h' | h' <;> rw [h, h'] <;>
        simp [isSubseqOf, extendedLinearOrder]
    · intro htb0
      simp only [List.filterMap_cons, List.filterMap_append, opTag]
      rcases hta with h | h <;> rw [h, htb0] <;>
        simp [isSubseqOf, specLinearOrder]

/-- Witness for the amended C6 on the concrete oracle. -/
theorem C6_linear_order_witness :
    isSubseqOf (opsOf (get_potential_energy extD cnameC "input.traj" "pw.pwo"
      { heap := Heap.empty, trace := [] }).2.trace) specLinearOrder = true :=
  C6_linear_order.1 extD cnameC "input.traj" "pw.pwo" Heap.empty paIn cnameC 0
    params0c resC [pimg0, pimg1] (by decide) rfl (by decide) (by decide)
    (by decide) rfl (by decide)

/-- C1 counterexample: on a fully periodic input the trajectory
`catflow_relaxation` returns is patched with the constraints and periodic
flags of the resymmetrized prototype structure (rebound over the local
`atoms` before the patch loop), not those of the input structure: here the
input carries constraint `7` but every returned image carries no
constraint at all. -/
theorem C1_preservation_counterexample :
    extDbulk.readFile "input.traj" = Except.ok paBulk ∧
    (catflow_relaxation extDbulk none none none
      { heap := Heap.empty, trace := [] }).1.toOption ≠ none ∧
    ¬ (∀ img ∈ runImages (catflow_relaxation extDbulk none none none
        { heap := Heap.empty, trace := [] }),
        img.constraints = paBulk.constraints ∧ img.pbc = paBulk.pbc) := by
  decide

/-- C1 as amended: every returned (and, for `catflow_relaxation`, every
persisted) image carries the constraints and periodic flags of the
structure held by the function when the patch loop runs — for
`get_potential_energy` and `run_mlneb` that is the input structure, and
for `catflow_relaxation` it is the input structure whenever the
resymmetrization step leaves constraints and periodic flags unchanged
(in particular whenever the structure is not fully periodic, since the
step is then skipped); in the fully periodic branch the patched values
are those of the resymmetrized structure. -/
theorem C1_constraints_pbc_preserved :
    (∀ (ext : Oracle) (calculator in_file out_file : String) (h0 : Heap)
      (pa : PAtoms) (cls : String) (pref : Nat) (params : Dict) (res : CalcRes)
      (pimgs : List PAtoms),
      ext.readFile in_file = Except.ok pa →
      ext.strToClass calculator = Except.ok cls →
      dictGet (allocPDict h0 pa.info).2 "calculator_parameters" =
        some (Value.ref pref) →
      (allocAtoms h0 pa).1.cells pref = some params →
      ext.calcRun (Calc.mk cls none params) (allocAtoms h0 pa).2 = Except.ok res →
      ext.decafAvailable = true →
      (if ext.isEspresso cls then ext.decafReadTraj out_file
        else ext.readTraj out_file) = Except.ok pimgs →
      ∀ img ∈ runImages (get_potential_energy ext calculator in_file out_file
        { heap := h0, trace := [] }),
        img.constraints = pa.constraints ∧ img.pbc = pa.pbc) ∧
    (∀ (ext : Oracle) (start_file end_file out_file : String) (n_images : Nat)
      (interpolation : String) (restart : Bool) (h0 : Heap) (pa : PAtoms)
      (cls : String) (v : Value) (pimgs : List PAtoms),
      ext.readFile start_file = Except.ok pa →
      ext.strToClass "catlearn.optimize.mlneb.MLNEB" = Except.ok cls →
      ext.nebInit start_file end_file
        (resolveInfo (allocAtoms h0 pa).1 (allocAtoms h0 pa).2.infoRef)
        n_images interpolation restart = Except.ok () →
      dictGet (allocPDict h0 pa.info).2 "fmax" = some v →
      ext.nebRun mlnebFmax out_file = Except.ok () →
      ext.decafAvailable = true →
      ext.decafReadTraj out_file = Except.ok pimgs →
      ∀ img ∈ runImages (run_mlneb ext start_file end_file out_file n_images
        interpolation restart { heap := h0, trace := [] }),
        img.constraints = pa.constraints ∧ img.pbc = pa.pbc) ∧
    (∀ (ext : Oracle) (atoms? : Option Atoms) (calculator_name? : Option String)
      (parameters? : Option Nat) (h0 h1 h2 h4 : Heap) (atoms0 : Atoms)
      (trA trB : List Event) (pref : Nat) (cname : String) (infoD : Dict)
      (cls : String) (params0 : Dict) (res : CalcRes) (ca : Calc × Atoms)
      (pimgs : List PAtoms) (i0 : Atoms) (irest : List Atoms)
      (imagesF : List Atoms),
      (∀ t, defaultAtoms ext atoms? { heap := h0, trace := t } =
        (Except.ok atoms0, { heap := h1, trace := t ++ trA })) →
      (∀ t, defaultParams atoms0.infoRef parameters? { heap := h1, trace := t } =
        (Except.ok pref, { heap := h1, trace := t })) →
      (∀ t, defaultCalculatorName pref calculator_name? { heap := h1, trace := t } =
        (Except.ok cname, { heap := h2, trace := t })) →
      h2.cells atoms0.infoRef = some infoD →
      ext.strToClass cname = Except.ok cls →
      (h2.alloc infoD).1.cells pref = some params0 →
      ext.calcRun (Calc.mk cls (some "pw0.pwi") params0) atoms0 = Except.ok res →
      (∀ t, maybeResymmetrize ext cls pref (Calc.mk cls (some "pw0.pwi") params0)
        (applyCalc atoms0 res) { heap := (h2.alloc infoD).1, trace := t } =
        (Except.ok ca, { heap := h4, trace := t ++ trB })) →
      ext.decafAvailable = true →
      (if ext.isEspresso ca.1.cls then ext.decafReadTraj "pw0.pwo"
        else ext.readTraj "pw0.pwo") = Except.ok pimgs →
      (allocImages h4 pimgs).2 = i0 :: irest →
      ((if ca.2.pbc.all id then
          { i0 with infoRef := (h2.alloc infoD).2 } :: (irest ++ [ca.2])
        else
          { i0 with infoRef := (h2.alloc infoD).2 } :: irest).map
          (patchImage ca.2)) = imagesF →
      ext.dbUpdate (imagesF.map (resolveAtoms (allocImages h4 pimgs).1)) =
        Except.ok () →
      (∀ img ∈ runImages (catflow_relaxation ext atoms? calculator_name?
          parameters? { heap := h0, trace := [] }),
        img.constraints = ca.2.constraints ∧ img.pbc = ca.2.pbc) ∧
      (∀ q ∈ imagesF.map (resolveAtoms (allocImages h4 pimgs).1),
        q.constraints = ca.2.constraints ∧ q.pbc = ca.2.pbc) ∧
      (ca.2.constraints = atoms0.constraints → ca.2.pbc = atoms0.pbc →
        ∀ img ∈ runImages (catflow_relaxation ext atoms? calculator_name?
          parameters? { heap := h0, trace := [] }),
          img.constraints = atoms0.constraints ∧ img.pbc = atoms0.pbc)) := by
  refine ⟨?_, ?_, ?_⟩
  · intro ext calculator in_file out_file h0 pa cls pref params res pimgs hread
      hstc hcp hpp hrun hdec hrdt img himg
    rw [get_potential_energy_run ext calculator in_file out_file h0 pa cls
      pref params res pimgs hread hstc hcp hpp hrun hdec hrdt] at himg
    simp only [runImages, Except.toOption, Option.getD_some] at himg
    exact patched_constraints_pbc _ _ img himg
  · intro ext start_file end_file out_file n_images interpolation restart h0 pa
      cls v pimgs hread hstc hni hfm hnr hdec hrdt img himg
    rw [run_mlneb_run ext start_file end_file out_file n_images interpolation
      restart h0 pa cls v pimgs hread hstc hni hfm hnr hdec hrdt] at himg
    simp only [runImages, Except.toOption, Option.getD_some] at himg
    exact patched_constraints_pbc _ _ img himg
  · intro ext atoms? calculator_name? parameters? h0 h1 h2 h4 atoms0 trA trB pref
      cname infoD cls params0 res ca pimgs i0 irest imagesF hda hdp hdcn hi hstc
      hp0 hrun hmr hdec hrdt hne himgs hdb
    have hrw := catflow_relaxation_run ext atoms? calculator_name? parameters?
      h0 h1 h2 h4 atoms0 trA trB pref cname infoD cls params0 res ca pimgs i0
      irest imagesF hda hdp hdcn hi hstc hp0 hrun hmr hdec hrdt hne himgs hdb
    have hmain : ∀ img ∈ runImages (catflow_relaxation ext atoms?
        calculator_name? parameters? { heap := h0, trace := [] }),
        img.constraints = ca.2.constraints ∧ img.pbc = ca.2.pbc := by
      intro img himg
      rw [hrw] at himg
      simp only [runImages, Except.toOption, Option.getD_some] at himg
      rw [← himgs] at himg
      exact patched_constraints_pbc _ _ img himg
    refine ⟨hmain, ?_, ?_⟩
    · intro q hq
      obtain ⟨img, himg, rfl⟩ := List.mem_map.1 hq
      rw [← himgs] at himg
      have := patched_constraints_pbc _ _ img himg
      exact ⟨this.1, this.2⟩
    · intro hc hp img himg
      have := hmain img himg
      exact ⟨this.1.trans hc, this.2.trans hp⟩

/-- Witness for the amended C1 on the concrete oracle: the trajectory of
a slab relaxation carries the input structure's constraint list `[7]` and
periodic flags. -/
theorem C1_constraints_pbc_preserved_witness :
    ∀ img ∈ runImages (catflow_relaxation extD (some a0c) (some cnameC) (some 0)
      { heap := h0c, trace := [] }),
      img.constraints = a0c.constraints ∧ img.pbc = a0c.pbc :=
  (C1_constraints_pbc_preserved.2.2 extD (some a0c) (some cnameC) (some 0)
    h0c h0c h0c h4c a0c [] [] 0 cnameC infoDc cnameC params0c resC caC
    [pimg0, pimg1] i0c [i1c] imagesFc
    (fun t => by simp [defaultAtoms])
    (fun t => rfl)
    (fun t => rfl)
    (by decide)
    rfl
    (by decide)
    rfl
    (fun t => by
      rw [maybeResymmetrize_nonbulk _ _ _ _ _ _ (by decide)]
      simp [h4c, caC])
    rfl
    (by decide)
    (by decide)
    (by decide)
    rfl).2.2 (by decide) (by decide)

/-- C9: when `calculator_name` is None, `catflow_relaxation` pops
`'calculator_name'` out of the parameters dict in place: after the call
the caller-visible dict (whether passed as the `parameters` argument or
defaulted from the input structure's
`atoms.info['calculator_parameters']`) no longer contains the key. -/
theorem C9_pop_mutates_parameters :
    (∀ (ext : Oracle) (a0 : Atoms) (r : Nat) (h0 h4 : Heap) (d0 infoD : Dict)
      (cname : String) (cls : String) (res : CalcRes) (ca : Calc × Atoms)
      (trB : List Event) (pimgs : List PAtoms) (i0 : Atoms)
      (irest : List Atoms) (imagesF : List Atoms),
      r < h0.next →
      h0.cells r = some d0 →
      dictGet d0 "calculator_name" = some (Value.prim (Prim.str cname)) →
      (h0.set r (dictPop d0 "calculator_name")).cells a0.infoRef = some infoD →
      ext.strToClass cname = Except.ok cls →
      ext.calcRun (Calc.mk cls (some "pw0.pwi") (dictPop d0 "calculator_name"))
        a0 = Except.ok res →
      (∀ t, maybeResymmetrize ext cls r
        (Calc.mk cls (some "pw0.pwi") (dictPop d0 "calculator_name"))
        (applyCalc a0 res)
        { heap := ((h0.set r (dictPop d0 "calculator_name")).alloc infoD).1,
          trace := t } =
        (Except.ok ca, { heap := h4, trace := t ++ trB })) →
      h4.next = h0.next + 1 →
      (∀ n, n < h0.next →
        h4.cells n = ((h0.set r (dictPop d0 "calculator_name")).alloc infoD).1.cells n) →
      ext.decafAvailable = true →
      (if ext.isEspresso ca.1.cls then ext.decafReadTraj "pw0.pwo"
        else ext.readTraj "pw0.pwo") = Except.ok pimgs →
      (allocImages h4 pimgs).2 = i0 :: irest →
      ((if ca.2.pbc.all id then
          { i0 with infoRef :=
            ((h0.set r (dictPop d0 "calculator_name")).alloc infoD).2 } ::
            (irest ++ [ca.2])
        else
          { i0 with infoRef :=
            ((h0.set r (dictPop d0 "calculator_name")).alloc infoD).2 } :: irest).map
          (patchImage ca.2)) = imagesF →
      ext.dbUpdate (imagesF.map (resolveAtoms (allocImages h4 pimgs).1)) =
        Except.ok () →
      (catflow_relaxation ext (some a0) none (some r)
        { heap := h0, trace := [] }).2.heap.cells r =
        some (dictPop d0 "calculator_name") ∧
      dictGet (((catflow_relaxation ext (some a0) none (some r)
        { heap := h0, trace := [] }).2.heap.cells r).getD [])
        "calculator_name" = none) ∧
    (∀ (ext : Oracle) (a0 : Atoms) (p : Nat) (h0 h4 : Heap)
      (info0 d0 infoD : Dict) (cname : String) (cls : String) (res : CalcRes)
      (ca : Calc × Atoms) (trB : List Event) (pimgs : List PAtoms) (i0 : Atoms)
      (irest : List Atoms) (imagesF : List Atoms),
      h0.cells a0.infoRef = some info0 →
      dictGet info0 "calculator_parameters" = some (Value.ref p) →
      p < h0.next →
      h0.cells p = some d0 →
      dictGet d0 "calculator_name" = some (Value.prim (Prim.str cname)) →
      (h0.set p (dictPop d0 "calculator_name")).cells a0.infoRef = some infoD →
      ext.strToClass cname = Except.ok cls →
      ext.calcRun (Calc.mk cls (some "pw0.pwi") (dictPop d0 "calculator_name"))
        a0 = Except.ok res →
      (∀ t, maybeResymmetrize ext cls p
        (Calc.mk cls (some "pw0.pwi") (dictPop d0 "calculator_name"))
        (applyCalc a0 res)
        { heap := ((h0.set p (dictPop d0 "calculator_name")).alloc infoD).1,
          trace := t } =
        (Except.ok ca, { heap := h4, trace := t ++ trB })) →
      h4.next = h0.next + 1 →
      (∀ n, n < h0.next →
        h4.cells n = ((h0.set p (dictPop d0 "calculator_name")).alloc infoD).1.cells n) →
      ext.decafAvailable = true →
      (if ext.isEspresso ca.1.cls then ext.decafReadTraj "pw0.pwo"
        else ext.readTraj "pw0.pwo") = Except.ok pimgs →
      (allocImages h4 pimgs).2 = i0 :: irest →
      ((if ca.2.pbc.all id then
          { i0 with infoRef :=
            ((h0.set p (dictPop d0 "calculator_name")).alloc infoD).2 } ::
            (irest ++ [ca.2])
        else
          { i0 with infoRef :=
            ((h0.set p (dictPop d0 "calculator_name")).alloc infoD).2 } :: irest).map
          (patchImage ca.2)) = imagesF →
      ext.dbUpdate (imagesF.map (resolveAtoms (allocImages h4 pimgs).1)) =
        Except.ok () →
      dictGet (((catflow_relaxation ext (some a0) none none
        { heap := h0, trace := [] }).2.heap.cells p).getD [])
        "calculator_name" = none) := by
  constructor
  · intro ext a0 r h0 h4 d0 infoD cname cls res ca trB pimgs i0 irest imagesF
      hr hd0 hnm hi hstc hrun hmr hn4 hc4 hdec hrdt hne himgs hdb
    have hrw := catflow_relaxation_run ext (some a0) none (some r) h0 h0
      (h0.set r (dictPop d0 "calculator_name")) h4 a0 [] trB r cname infoD cls
      (dictPop d0 "calculator_name") res ca pimgs i0 irest imagesF
      (fun t => by simp [defaultAtoms])
      (fun t => rfl)
      (fun t => defaultCalculatorName_none_ok r { heap := h0, trace := t } d0
        cname hd0 hnm)
      hi hstc
      (by
        rw [(alloc_heapExt (h0.set r (dictPop d0 "calculator_name")) infoD).2 r
          (by rw [Heap.set_next]; exact hr)]
        exact Heap.set_cells_self h0 r _)
      hrun hmr hdec hrdt hne himgs hdb
    rw [hrw]
    have hfin : (allocImages h4 pimgs).1.cells r =
        some (dictPop d0 "calculator_name") := by
      rw [(allocImages_heapExt h4 pimgs).2 r (by rw [hn4]; exact Nat.lt_succ_of_lt hr)]
      rw [hc4 r hr]
      rw [(alloc_heapExt (h0.set r (dictPop d0 "calculator_name")) infoD).2 r
        (by rw [Heap.set_next]; exact hr)]
      exact Heap.set_cells_self h0 r _
    refine ⟨hfin, ?_⟩
    rw [hfin, Option.getD_some]
    exact dictGet_dictPop d0 "calculator_name"
  · intro ext a0 p h0 h4 info0 d0 infoD cname cls res ca trB pimgs i0 irest
      imagesF hi0 hcp hp hd0 hnm hi hstc hrun hmr hn4 hc4 hdec hrdt hne himgs hdb
    have hrw := catflow_relaxation_run ext (some a0) none none h0 h0
      (h0.set p (dictPop d0 "calculator_name")) h4 a0 [] trB p cname infoD cls
      (dictPop d0 "calculator_name") res ca pimgs i0 irest imagesF
      (fun t => by simp [defaultAtoms])
      (fun t => defaultParams_none_ok a0.infoRef { heap := h0, trace := t }
        info0 p hi0 hcp)
      (fun t => defaultCalculatorName_none_ok p { heap := h0, trace := t } d0
        cname hd0 hnm)
      hi hstc
      (by
        rw [(alloc_heapExt (h0.set p (dictPop d0 "calculator_name")) infoD).2 p
          (by rw [Heap.set_next]; exact hp)]
        exact Heap.set_cells_self h0 p _)
      hrun hmr hdec hrdt hne himgs hdb
    rw [hrw]
    have hfin : (allocImages h4 pimgs).1.cells p =
        some (dictPop d0 "calculator_name") := by
      rw [(allocImages_heapExt h4 pimgs).2 p (by rw [hn4]; exact Nat.lt_succ_of_lt hp)]
      rw [hc4 p hp]
      rw [(alloc_heapExt (h0.set p (dictPop d0 "calculator_name")) infoD).2 p
        (by rw [Heap.set_next]; exact hp)]
      exact Heap.set_cells_self h0 p _
    rw [hfin, Option.getD_some]
    exact dictGet_dictPop d0 "calculator_name"

/-- The fixture parameters dict after the pop. -/
def poppedParamsC : Dict := [("kpts", Value.prim (Prim.int 4))]

/-- Fixture calculator/structure pair for the defaulted-parameters run. -/
def caPopC : Calc × Atoms :=
  (Calc.mk cnameC (some "pw0.pwi") poppedParamsC, applyCalc a0c resC)

/-- Fixture heap after the in-place pop. -/
def h2popC : Heap := h0c.set 0 (dictPop params0c "calculator_name")

/-- Fixture heap after the `data` copy allocation of the defaulted run. -/
def h4popC : Heap := (h2popC.alloc infoDc).1

/-- Fixture output images of the defaulted run. -/
def imagesFpopC : List Atoms :=
  [patchImage caPopC.2 { i0c with infoRef := 2 }, patchImage caPopC.2 i1c]

/-- Witness for C9 on the concrete oracle: after a defaulted-parameters
call, the nested `calculator_parameters` dict of the input structure no
longer contains `calculator_name`. -/
theorem C9_pop_mutates_parameters_witness :
    dictGet (((catflow_relaxation extD (some a0c) none none
      { heap := h0c, trace := [] }).2.heap.cells 0).getD [])
      "calculator_name" = none :=
  C9_pop_mutates_parameters.2 extD a0c 0 h0c h4popC infoDc params0c infoDc
    cnameC cnameC resC caPopC [] [pimg0, pimg1] i0c [i1c] imagesFpopC
    (by decide) (by decide) (by decide) (by decide) (by decide) (by decide)
    rfl (by decide)
    (fun t => by
      rw [maybeResymmetrize_nonbulk _ _ _ _ _ _ (by decide)]
      simp [caPopC, h4popC, h2popC, poppedParamsC]
      decide)
    (by decide)
    (fun n hn => rfl)
    rfl (by decide) (by decide) (by decide) rfl

/-- C10: whenever the structure is fully periodic after the first
relaxation (and the resymmetrized prototype it is rebound to is itself
fully periodic, as a bulk prototype is), `catflow_relaxation`
resymmetrizes the structure, switches the shared parameters dict to an
`scf` calculation, instantiates and runs a second calculator on the
resymmetrized copy, and appends that post-scf structure as the final
image of the patched trajectory that is persisted and returned — so the
output trajectory is one image longer than the trajectory read from the
log file, and its last image is the (patched) post-scf resymmetrized
structure. -/
theorem C10_bulk_scf_appended (ext : Oracle) (atoms? : Option Atoms)
    (calculator_name? : Option String) (parameters? : Option Nat)
    (h0 h1 h2 h4 : Heap) (atoms0 : Atoms) (trA : List Event)
    (pref : Nat) (cname : String) (infoD : Dict) (cls : String)
    (params0 params1 : Dict) (res res1 : CalcRes) (pr : String × PAtoms)
    (d : Dict) (aScf : Atoms) (pimgs : List PAtoms) (i0 : Atoms)
    (irest : List Atoms) (imagesF : List Atoms)
    (hda : ∀ t, defaultAtoms ext atoms? { heap := h0, trace := t } =
      (Except.ok atoms0, { heap := h1, trace := t ++ trA }))
    (hdp : ∀ t, defaultParams atoms0.infoRef parameters? { heap := h1, trace := t } =
      (Except.ok pref, { heap := h1, trace := t }))
    (hdcn : ∀ t, defaultCalculatorName pref calculator_name? { heap := h1, trace := t } =
      (Except.ok cname, { heap := h2, trace := t }))
    (hi : h2.cells atoms0.infoRef = some infoD)
    (hstc : ext.strToClass cname = Except.ok cls)
    (hp0 : (h2.alloc infoD).1.cells pref = some params0)
    (hrun : ext.calcRun (Calc.mk cls (some "pw0.pwi") params0) atoms0 = Except.ok res)
    (hb : (applyCalc atoms0 res).pbc.all id = true)
    (hck : ext.ckutilAvailable = true)
    (hpr : ext.prototype (applyCalc atoms0 res) protoTol = Except.ok pr)
    (hc1 : (allocAtoms (h2.alloc infoD).1 pr.2).1.cells pref = some d)
    (hps : params1 = dictSet d "calculation" (Value.prim (Prim.str "scf")))
    (hrun1 : ext.calcRun (Calc.mk cls (some "pw1.pwi") params1)
      (allocAtoms (h2.alloc infoD).1 pr.2).2 = Except.ok res1)
    (has : aScf = applyCalc (allocAtoms (h2.alloc infoD).1 pr.2).2 res1)
    (hh4 : h4 = ((allocAtoms (h2.alloc infoD).1 pr.2).1).set pref params1)
    (hprb : pr.2.pbc.all id = true)
    (hdec : ext.decafAvailable = true)
    (hrdt : (if ext.isEspresso cls then ext.decafReadTraj "pw0.pwo"
      else ext.readTraj "pw0.pwo") = Except.ok pimgs)
    (hne : (allocImages h4 pimgs).2 = i0 :: irest)
    (himagesF : imagesF = ({ i0 with infoRef := (h2.alloc infoD).2 } ::
      (irest ++ [aScf])).map (patchImage aScf))
    (hdb : ext.dbUpdate (imagesF.map (resolveAtoms (allocImages h4 pimgs).1)) =
      Except.ok ()) :
    catflow_relaxation ext atoms? calculator_name? parameters?
      { heap := h0, trace := [] } =
      (Except.ok
        (ext.encode (imagesF.map (resolveAtoms (allocImages h4 pimgs).1)), imagesF),
       { heap := (allocImages h4 pimgs).1,
         trace := Event.branch BranchTag.atomsIsNone atoms?.isNone ::
           (trA ++ (Event.branch BranchTag.parametersIsNone parameters?.isNone ::
             Event.branch BranchTag.calculatorNameIsNone calculator_name?.isNone ::
             Event.instCalc cls (some "pw0.pwi") params0 ::
             Event.runCalc ::
             Event.branch BranchTag.pbcAll true ::
             ([Event.instCalc cls (some "pw1.pwi") params1, Event.runCalc] ++
               [Event.branch BranchTag.isinstanceEspresso (ext.isEspresso cls),
                Event.readMany "pw0.pwo",
                Event.branch BranchTag.pbcAll true,
                Event.patchMeta,
                Event.dbOpen, Event.dbWrite, Event.dbClose,
                Event.encodeEv]))) }) ∧
    imagesF.length = pimgs.length + 1 ∧
    imagesF.getLast? = some (patchImage aScf aScf) ∧
    dictGet params1 "calculation" = some (Value.prim (Prim.str "scf")) := by
  subst hps has hh4 himagesF
  have hca2 : (applyCalc (allocAtoms (h2.alloc infoD).1 pr.2).2 res1).pbc.all id = true := by
    rw [applyCalc_pbc, (allocAtoms_fields (h2.alloc infoD).1 pr.2).2.2.1]
    exact hprb
  have hmr : ∀ t, maybeResymmetrize ext cls pref
      (Calc.mk cls (some "pw0.pwi") params0) (applyCalc atoms0 res)
      { heap := (h2.alloc infoD).1, trace := t } =
      (Except.ok
        (Calc.mk cls (some "pw1.pwi")
          (dictSet d "calculation" (Value.prim (Prim.str "scf"))),
         applyCalc (allocAtoms (h2.alloc infoD).1 pr.2).2 res1),
       { heap := ((allocAtoms (h2.alloc infoD).1 pr.2).1).set pref
           (dictSet d "calculation" (Value.prim (Prim.str "scf"))),
         trace := t ++
           [Event.instCalc cls (some "pw1.pwi")
             (dictSet d "calculation" (Value.prim (Prim.str "scf"))),
            Event.runCalc] }) := fun t =>
    maybeResymmetrize_bulk_ok ext cls pref
      (Calc.mk cls (some "pw0.pwi") params0) (applyCalc atoms0 res)
      { heap := (h2.alloc infoD).1, trace := t } pr d res1 hb hck hpr hc1 hrun1
  have hrw := catflow_relaxation_run ext atoms? calculator_name? parameters?
    h0 h1 h2 _ atoms0 trA
    [Event.instCalc cls (some "pw1.pwi")
      (dictSet d "calculation" (Value.prim (Prim.str "scf"))),
     Event.runCalc]
    pref cname infoD cls params0 res
    (Calc.mk cls (some "pw1.pwi")
      (dictSet d "calculation" (Value.prim (Prim.str "scf"))),
     applyCalc (allocAtoms (h2.alloc infoD).1 pr.2).2 res1)
    pimgs i0 irest _ hda hdp hdcn hi hstc hp0 hrun hmr hdec hrdt hne
    (by simp [hca2]) hdb
  refine ⟨?_, ?_, ?_, dictGet_dictSet_self d "calculation" _⟩
  · rw [hrw]
    simp [hb, hca2]
  · have hlen := allocImages_length
      (((allocAtoms (h2.alloc infoD).1 pr.2).1).set pref
        (dictSet d "calculation" (Value.prim (Prim.str "scf")))) pimgs
    rw [hne] at hlen
    simp only [List.length_cons] at hlen
    simp
    omega
  · rw [← List.cons_append, List.map_append]
    simp only [List.map_cons, List.map_nil]
    rw [List.getLast?_concat]

/-- Fixture heap holding the bulk input structure. -/
def h0bC : Heap := (allocAtoms Heap.empty paBulk).1

/-- Fixture heap-resident bulk input structure. -/
def a0bC : Atoms := (allocAtoms Heap.empty paBulk).2

/-- Fixture prototype-tag result on the bulk input. -/
def prBC : String × PAtoms := ("A1", paProto)

/-- Fixture parameters dict after the switch to `scf`. -/
def params1bC : Dict := dictSet params0c "calculation" (Value.prim (Prim.str "scf"))

/-- Fixture heap-resident resymmetrized prototype structure. -/
def aProtoC : Atoms := (allocAtoms (h0bC.alloc infoDc).1 paProto).2

/-- Fixture result of the second (scf) calculator run. -/
def res1bC : CalcRes := { positions := paProto.positions, energy := 42 }

/-- Fixture post-scf resymmetrized structure. -/
def aScfbC : Atoms := applyCalc aProtoC res1bC

/-- Fixture heap after the scf parameter switch. -/
def h4bC : Heap :=
  ((allocAtoms (h0bC.alloc infoDc).1 paProto).1).set 0 params1bC

/-- First reader image brought onto the bulk fixture heap. -/
def i0bC : Atoms :=
  { positions := pimg0.positions, cell := pimg0.cell, pbc := pimg0.pbc,
    constraints := pimg0.constraints, energy := pimg0.energy, infoRef := 4 }

/-- Second reader image brought onto the bulk fixture heap. -/
def i1bC : Atoms :=
  { positions := pimg1.positions, cell := pimg1.cell, pbc := pimg1.pbc,
    constraints := pimg1.constraints, energy := pimg1.energy, infoRef := 5 }

/-- Fixture output images of the bulk relaxation. -/
def imagesFbC : List Atoms :=
  ({ i0bC with infoRef := 2 } :: ([i1bC] ++ [aScfbC])).map (patchImage aScfbC)

/-- Witness for C10 at the concrete bulk oracle: the returned trajectory
has one image more than the log file's two, and its last image is the
patched post-scf resymmetrized structure. -/
theorem C10_bulk_scf_appended_witness :
    (catflow_relaxation extDbulk (some a0bC) (some cnameC) (some 0)
      { heap := h0bC, trace := [] }).1 =
      Except.ok
        (extDbulk.encode
          (imagesFbC.map (resolveAtoms (allocImages h4bC [pimg0, pimg1]).1)),
         imagesFbC) ∧
    imagesFbC.length = [pimg0, pimg1].length + 1 ∧
    imagesFbC.getLast? = some (patchImage aScfbC aScfbC) := by
  have h := C10_bulk_scf_appended extDbulk (some a0bC) (some cnameC) (some 0)
    h0bC h0bC h0bC h4bC a0bC [] 0 cnameC infoDc cnameC params0c params1bC
    resC res1bC prBC params0c aScfbC [pimg0, pimg1] i0bC [i1bC] imagesFbC
    (fun t => by simp [defaultAtoms])
    (fun t => rfl)
    (fun t => rfl)
    (by decide)
    rfl
    (by decide)
    (by decide)
    (by decide)
    rfl
    rfl
    (by decide)
    rfl
    rfl
    rfl
    rfl
    rfl
    (by decide)
    (by decide)
    rfl
    rfl
    rfl
  exact ⟨congrArg Prod.fst h.1, h.2.1, h.2.2.1⟩

/-- Resolving a patched freshly-allocated image list gives back the pure
reader images with only constraints and pbc overwritten. -/
theorem patched_resolve_allocImages {h : Heap} (l : List PAtoms) (a : Atoms)
    {h' : Heap} (hext : HeapExt (allocImages h l).1 h') :
    ((allocImages h l).2.map (patchImage a)).map (resolveAtoms h') =
      l.map (fun p => { p with constraints := a.constraints, pbc := a.pbc }) := by
  rw [List.map_map]
  have h1 : (resolveAtoms h' ∘ patchImage a) =
      (fun p : PAtoms => { p with constraints := a.constraints, pbc := a.pbc }) ∘
        resolveAtoms h' := by
    funext x
    simp [Function.comp, resolveAtoms_patchImage]
  rw [h1, ← List.map_map, resolveAtoms_allocImages l hext]

/-- C4 counterexample: the claim says only constraints and the periodic
flag of the forwarded structures are mutated, but `catflow_relaxation`
also overwrites the first image's metadata mapping with the `data` copy
of the input structure's `info` (line 100): the reader returns `pimg0`
first, and the first returned image's resolved metadata is the input's
`infoIn`, not `pimg0`'s own mapping. -/
theorem C4_frame_counterexample :
    extD.decafReadTraj "pw0.pwo" = Except.ok [pimg0, pimg1] ∧
    ((runImages (catflow_relaxation extD (some a0c) (some cnameC) (some 0)
        { heap := h0c, trace := [] })).map
      (fun img => (resolveAtoms (catflow_relaxation extD (some a0c) (some cnameC)
        (some 0) { heap := h0c, trace := [] }).2.heap img).info)).head? =
      some infoIn ∧
    infoIn ≠ pimg0.info := by
  decide

/-- C4 as amended: on the success path, every returned structure of
`get_potential_energy` and `run_mlneb` differs from what the trajectory
reader returned only in its constraints and periodic flag (positions,
cell, energies and the metadata mapping are unchanged); for
`catflow_relaxation` the same holds for every image except the first,
whose metadata mapping is additionally replaced by the `data` copy of the
input structure's `info` (shown here for a structure that is not fully
periodic, so no image is appended). -/
theorem C4_reader_fields_frame :
    (∀ (ext : Oracle) (calculator in_file out_file : String) (h0 : Heap)
      (pa : PAtoms) (cls : String) (pref : Nat) (params : Dict) (res : CalcRes)
      (pimgs : List PAtoms),
      ext.readFile in_file = Except.ok pa →
      ext.strToClass calculator = Except.ok cls →
      dictGet (allocPDict h0 pa.info).2 "calculator_parameters" =
        some (Value.ref pref) →
      (allocAtoms h0 pa).1.cells pref = some params →
      ext.calcRun (Calc.mk cls none params) (allocAtoms h0 pa).2 = Except.ok res →
      ext.decafAvailable = true →
      (if ext.isEspresso cls then ext.decafReadTraj out_file
        else ext.readTraj out_file) = Except.ok pimgs →
      (runImages (get_potential_energy ext calculator in_file out_file
          { heap := h0, trace := [] })).map
        (resolveAtoms (get_potential_energy ext calculator in_file out_file
          { heap := h0, trace := [] }).2.heap) =
        pimgs.map (fun p => { p with constraints := pa.constraints, pbc := pa.pbc })) ∧
    (∀ (ext : Oracle) (start_file end_file out_file : String) (n_images : Nat)
      (interpolation : String) (restart : Bool) (h0 : Heap) (pa : PAtoms)
      (cls : String) (v : Value) (pimgs : List PAtoms),
      ext.readFile start_file = Except.ok pa →
      ext.strToClass "catlearn.optimize.mlneb.MLNEB" = Except.ok cls →
      ext.nebInit start_file end_file
        (resolveInfo (allocAtoms h0 pa).1 (allocAtoms h0 pa).2.infoRef)
        n_images interpolation restart = Except.ok () →
      dictGet (allocPDict h0 pa.info).2 "fmax" = some v →
      ext.nebRun mlnebFmax out_file = Except.ok () →
      ext.decafAvailable = true →
      ext.decafReadTraj out_file = Except.ok pimgs →
      (runImages (run_mlneb ext start_file end_file out_file n_images
          interpolation restart { heap := h0, trace := [] })).map
        (resolveAtoms (run_mlneb ext start_file end_file out_file n_images
          interpolation restart { heap := h0, trace := [] }).2.heap) =
        pimgs.map (fun p => { p with constraints := pa.constraints, pbc := pa.pbc })) ∧
    (∀ (ext : Oracle) (atoms? : Option Atoms) (calculator_name? : Option String)
      (parameters? : Option Nat) (h0 h1 h2 : Heap) (atoms0 : Atoms)
      (trA : List Event) (pref : Nat) (cname : String) (infoD : Dict)
      (cls : String) (params0 : Dict) (res : CalcRes) (p0 : PAtoms)
      (rest0 : List PAtoms),
      (∀ t, defaultAtoms ext atoms? { heap := h0, trace := t } =
        (Except.ok atoms0, { heap := h1, trace := t ++ trA })) →
      (∀ t, defaultParams atoms0.infoRef parameters? { heap := h1, trace := t } =
        (Except.ok pref, { heap := h1, trace := t })) →
      (∀ t, defaultCalculatorName pref calculator_name? { heap := h1, trace := t } =
        (Except.ok cname, { heap := h2, trace := t })) →
      h2.cells atoms0.infoRef = some infoD →
      ext.strToClass cname = Except.ok cls →
      (h2.alloc infoD).1.cells pref = some params0 →
      ext.calcRun (Calc.mk cls (some "pw0.pwi") params0) atoms0 = Except.ok res →
      (applyCalc atoms0 res).pbc.all id = false →
      ext.decafAvailable = true →
      (if ext.isEspresso cls then ext.decafReadTraj "pw0.pwo"
        else ext.readTraj "pw0.pwo") = Except.ok (p0 :: rest0) →
      (∀ l, ext.dbUpdate l = Except.ok ()) →
      (runImages (catflow_relaxation ext atoms? calculator_name? parameters?
          { heap := h0, trace := [] })).map
        (resolveAtoms (catflow_relaxation ext atoms? calculator_name? parameters?
          { heap := h0, trace := [] }).2.heap) =
        { p0 with
            constraints := atoms0.constraints
            pbc := atoms0.pbc
            info := resolveDict (allocImages (h2.alloc infoD).1 (p0 :: rest0)).1 infoD } ::
          rest0.map
            (fun p => { p with constraints := atoms0.constraints, pbc := atoms0.pbc })) ∧
    (∀ (ext : Oracle) (atoms? : Option Atoms) (calculator_name? : Option String)
      (parameters? : Option Nat) (h0 h1 h2 h4 : Heap) (atoms0 : Atoms)
      (trA : List Event) (pref : Nat) (cname : String) (infoD : Dict)
      (cls : String) (params0 params1 : Dict) (res res1 : CalcRes)
      (pr : String × PAtoms) (d : Dict) (aScf : Atoms) (p0 : PAtoms)
      (rest0 : List PAtoms),
      (∀ t, defaultAtoms ext atoms? { heap := h0, trace := t } =
        (Except.ok atoms0, { heap := h1, trace := t ++ trA })) →
      (∀ t, defaultParams atoms0.infoRef parameters? { heap := h1, trace := t } =
        (Except.ok pref, { heap := h1, trace := t })) →
      (∀ t, defaultCalculatorName pref calculator_name? { heap := h1, trace := t } =
        (Except.ok cname, { heap := h2, trace := t })) →
      h2.cells atoms0.infoRef = some infoD →
      ext.strToClass cname = Except.ok cls →
      (h2.alloc infoD).1.cells pref = some params0 →
      pref < h2.next →
      ext.calcRun (Calc.mk cls (some "pw0.pwi") params0) atoms0 = Except.ok res →
      (applyCalc atoms0 res).pbc.all id = true →
      ext.ckutilAvailable = true →
      ext.prototype (applyCalc atoms0 res) protoTol = Except.ok pr →
      (allocAtoms (h2.alloc infoD).1 pr.2).1.cells pref = some d →
      params1 = dictSet d "calculation" (Value.prim (Prim.str "scf")) →
      ext.calcRun (Calc.mk cls (some "pw1.pwi") params1)
        (allocAtoms (h2.alloc infoD).1 pr.2).2 = Except.ok res1 →
      aScf = applyCalc (allocAtoms (h2.alloc infoD).1 pr.2).2 res1 →
      h4 = ((allocAtoms (h2.alloc infoD).1 pr.2).1).set pref params1 →
      pr.2.pbc.all id = true →
      ext.decafAvailable = true →
      (if ext.isEspresso cls then ext.decafReadTraj "pw0.pwo"
        else ext.readTraj "pw0.pwo") = Except.ok (p0 :: rest0) →
      (∀ l, ext.dbUpdate l = Except.ok ()) →
      (runImages (catflow_relaxation ext atoms? calculator_name? parameters?
          { heap := h0, trace := [] })).map
        (resolveAtoms (catflow_relaxation ext atoms? calculator_name? parameters?
          { heap := h0, trace := [] }).2.heap) =
        { p0 with
            constraints := aScf.constraints
            pbc := aScf.pbc
            info := resolveDict (allocImages h4 (p0 :: rest0)).1 infoD } ::
          (rest0.map
            (fun p => { p with constraints := aScf.constraints, pbc := aScf.pbc }) ++
            [resolveAtoms (allocImages h4 (p0 :: rest0)).1 aScf])) := by
  refine ⟨?_, ?_, ?_, ?_⟩
  · intro ext calculator in_file out_file h0 pa cls pref params res pimgs
      hread hstc hcp hpp hrun hdec hrdt
    rw [get_potential_energy_run ext calculator in_file out_file h0 pa cls pref
      params res pimgs hread hstc hcp hpp hrun hdec hrdt]
    simp only [runImages, Except.toOption, Option.getD_some]
    rw [patched_resolve_allocImages pimgs (applyCalc (allocAtoms h0 pa).2 res)
      (heapExt_refl _)]
    simp [applyCalc, allocAtoms]
  · intro ext start_file end_file out_file n_images interpolation restart h0 pa
      cls v pimgs hread hstc hni hfm hnr hdec hrdt
    rw [run_mlneb_run ext start_file end_file out_file n_images interpolation
      restart h0 pa cls v pimgs hread hstc hni hfm hnr hdec hrdt]
    simp only [runImages, Except.toOption, Option.getD_some]
    rw [patched_resolve_allocImages pimgs (allocAtoms h0 pa).2 (heapExt_refl _)]
    simp [allocAtoms]
  · intro ext atoms? calculator_name? parameters? h0 h1 h2 atoms0 trA pref cname
      infoD cls params0 res p0 rest0 hda hdp hdcn hi hstc hp0 hrun hnb hdec hrdt
      hdball
    have hmr : ∀ t, maybeResymmetrize ext cls pref
        (Calc.mk cls (some "pw0.pwi") params0) (applyCalc atoms0 res)
        { heap := (h2.alloc infoD).1, trace := t } =
        (Except.ok (Calc.mk cls (some "pw0.pwi") params0, applyCalc atoms0 res),
         { heap := (h2.alloc infoD).1, trace := t ++ [] }) := fun t => by
      rw [maybeResymmetrize_nonbulk _ _ _ _ _ _ hnb]
      simp
    have hrw := catflow_relaxation_run ext atoms? calculator_name? parameters?
      h0 h1 h2 ((h2.alloc infoD).1) atoms0 trA [] pref cname infoD cls params0 res
      (Calc.mk cls (some "pw0.pwi") params0, applyCalc atoms0 res) (p0 :: rest0)
      ((allocAtoms (h2.alloc infoD).1 p0).2)
      ((allocImages (allocAtoms (h2.alloc infoD).1 p0).1 rest0).2)
      (({ (allocAtoms (h2.alloc infoD).1 p0).2 with
          infoRef := (h2.alloc infoD).2 } ::
        (allocImages (allocAtoms (h2.alloc infoD).1 p0).1 rest0).2).map
        (patchImage (applyCalc atoms0 res)))
      hda hdp hdcn hi hstc hp0 hrun hmr hdec hrdt rfl (by simp [hnb]) (hdball _)
    rw [hrw]
    simp only [runImages, Except.toOption, Option.getD_some, List.map_cons]
    have hcell : (allocImages (h2.alloc infoD).1 (p0 :: rest0)).1.cells
        (h2.alloc infoD).2 = some infoD := by
      rw [(allocImages_heapExt (h2.alloc infoD).1 (p0 :: rest0)).2 (h2.alloc infoD).2
        (by rw [Heap.alloc_snd, Heap.alloc_next]; exact Nat.lt_succ_self _)]
      exact Heap.alloc_cells_self h2 infoD
    congr 1
    · simp [resolveAtoms, patchImage, resolveInfo, hcell, applyCalc, allocAtoms]
    · have heq : (allocImages (h2.alloc infoD).1 (p0 :: rest0)).1 =
          (allocImages (allocAtoms (h2.alloc infoD).1 p0).1 rest0).1 := rfl
      rw [heq,
        patched_resolve_allocImages rest0 (applyCalc atoms0 res) (heapExt_refl _)]
      simp [applyCalc]
  · intro ext atoms? calculator_name? parameters? h0 h1 h2 h4 atoms0 trA pref
      cname infoD cls params0 params1 res res1 pr d aScf p0 rest0
      hda hdp hdcn hi hstc hp0 hpref hrun hb hck hpr hc1 hps hrun1 has hh4 hprb
      hdec hrdt hdball
    subst hps has hh4
    have hca2 : (applyCalc (allocAtoms (h2.alloc infoD).1 pr.2).2 res1).pbc.all
        id = true := by
      rw [applyCalc_pbc, (allocAtoms_fields (h2.alloc infoD).1 pr.2).2.2.1]
      exact hprb
    have hmr : ∀ t, maybeResymmetrize ext cls pref
        (Calc.mk cls (some "pw0.pwi") params0) (applyCalc atoms0 res)
        { heap := (h2.alloc infoD).1, trace := t } =
        (Except.ok
          (Calc.mk cls (some "pw1.pwi")
            (dictSet d "calculation" (Value.prim (Prim.str "scf"))),
           applyCalc (allocAtoms (h2.alloc infoD).1 pr.2).2 res1),
         { heap := ((allocAtoms (h2.alloc infoD).1 pr.2).1).set pref
             (dictSet d "calculation" (Value.prim (Prim.str "scf"))),
           trace := t ++
             [Event.instCalc cls (some "pw1.pwi")
               (dictSet d "calculation" (Value.prim (Prim.str "scf"))),
              Event.runCalc] }) := fun t =>
      maybeResymmetrize_bulk_ok ext cls pref
        (Calc.mk cls (some "pw0.pwi") params0) (applyCalc atoms0 res)
        { heap := (h2.alloc infoD).1, trace := t } pr d res1 hb hck hpr hc1 hrun1
    have hrw := catflow_relaxation_run ext atoms? calculator_name? parameters?
      h0 h1 h2
      (((allocAtoms (h2.alloc infoD).1 pr.2).1).set pref
        (dictSet d "calculation" (Value.prim (Prim.str "scf"))))
      atoms0 trA
      [Event.instCalc cls (some "pw1.pwi")
        (dictSet d "calculation" (Value.prim (Prim.str "scf"))),
       Event.runCalc]
      pref cname infoD cls params0 res
      (Calc.mk cls (some "pw1.pwi")
        (dictSet d "calculation" (Value.prim (Prim.str "scf"))),
       applyCalc (allocAtoms (h2.alloc infoD).1 pr.2).2 res1)
      (p0 :: rest0)
      ((allocAtoms (((allocAtoms (h2.alloc infoD).1 pr.2).1).set pref
        (dictSet d "calculation" (Value.prim (Prim.str "scf")))) p0).2)
      ((allocImages (allocAtoms (((allocAtoms (h2.alloc infoD).1 pr.2).1).set pref
        (dictSet d "calculation" (Value.prim (Prim.str "scf")))) p0).1 rest0).2)
      (({ (allocAtoms (((allocAtoms (h2.alloc infoD).1 pr.2).1).set pref
          (dictSet d "calculation" (Value.prim (Prim.str "scf")))) p0).2 with
          infoRef := (h2.alloc infoD).2 } ::
        ((allocImages (allocAtoms (((allocAtoms (h2.alloc infoD).1 pr.2).1).set pref
          (dictSet d "calculation" (Value.prim (Prim.str "scf")))) p0).1 rest0).2 ++
         [applyCalc (allocAtoms (h2.alloc infoD).1 pr.2).2 res1])).map
        (patchImage (applyCalc (allocAtoms (h2.alloc infoD).1 pr.2).2 res1)))
      hda hdp hdcn hi hstc hp0 hrun hmr hdec hrdt rfl (by simp [hca2]) (hdball _)
    rw [hrw]
    simp only [runImages, Except.toOption, Option.getD_some, List.map_cons,
      List.map_append, List.map_nil]
    have hd1 : (h2.alloc infoD).2 < (h2.alloc infoD).1.next := by
      rw [Heap.alloc_snd, Heap.alloc_next]
      exact Nat.lt_succ_self _
    have hnepref : (h2.alloc infoD).2 ≠ pref := by
      rw [Heap.alloc_snd]
      exact (Nat.ne_of_lt hpref).symm
    have hd4 : (h2.alloc infoD).2 <
        (((allocAtoms (h2.alloc infoD).1 pr.2).1).set pref
          (dictSet d "calculation" (Value.prim (Prim.str "scf")))).next := by
      rw [Heap.set_next]
      exact lt_of_lt_of_le hd1 (allocAtoms_heapExt (h2.alloc infoD).1 pr.2).1
    have hcell : (allocImages (((allocAtoms (h2.alloc infoD).1 pr.2).1).set pref
        (dictSet d "calculation" (Value.prim (Prim.str "scf"))))
        (p0 :: rest0)).1.cells (h2.alloc infoD).2 = some infoD := by
      rw [(allocImages_heapExt _ (p0 :: rest0)).2 (h2.alloc infoD).2 hd4,
        Heap.set_cells_ne _ _ _ _ hnepref,
        (allocAtoms_heapExt (h2.alloc infoD).1 pr.2).2 (h2.alloc infoD).2 hd1]
      exact Heap.alloc_cells_self h2 infoD
    congr 1
    · simp only [resolveAtoms, patchImage, resolveInfo, hcell, Option.getD_some]
      simp [allocAtoms]
    · have heq : (allocImages (((allocAtoms (h2.alloc infoD).1 pr.2).1).set pref
          (dictSet d "calculation" (Value.prim (Prim.str "scf"))))
          (p0 :: rest0)).1 =
          (allocImages (allocAtoms (((allocAtoms (h2.alloc infoD).1 pr.2).1).set
            pref (dictSet d "calculation" (Value.prim (Prim.str "scf")))) p0).1
            rest0).1 := rfl
      rw [heq, patched_resolve_allocImages rest0
        (applyCalc (allocAtoms (h2.alloc infoD).1 pr.2).2 res1) (heapExt_refl _)]
      simp [patchImage]

/-- Witness for the amended C4 on concrete runs of both branches: in the
nonbulk run the output is the reader's two images with constraints/pbc
overwritten and the first image's metadata replaced by the input's `info`
copy; in the bulk run the same holds with the patch values taken from the
post-scf resymmetrized structure, which is also appended as the extra
final image. -/
theorem C4_reader_fields_frame_witness :
    ((runImages (catflow_relaxation extD (some a0c) (some cnameC) (some 0)
        { heap := h0c, trace := [] })).map
      (resolveAtoms (catflow_relaxation extD (some a0c) (some cnameC) (some 0)
        { heap := h0c, trace := [] }).2.heap) =
      { pimg0 with
          constraints := a0c.constraints
          pbc := a0c.pbc
          info := resolveDict (allocImages (h0c.alloc infoDc).1 [pimg0, pimg1]).1 infoDc } ::
        [pimg1].map
          (fun p => { p with constraints := a0c.constraints, pbc := a0c.pbc })) ∧
    ((runImages (catflow_relaxation extDbulk (some a0bC) (some cnameC) (some 0)
        { heap := h0bC, trace := [] })).map
      (resolveAtoms (catflow_relaxation extDbulk (some a0bC) (some cnameC) (some 0)
        { heap := h0bC, trace := [] }).2.heap) =
      { pimg0 with
          constraints := aScfbC.constraints
          pbc := aScfbC.pbc
          info := resolveDict (allocImages h4bC [pimg0, pimg1]).1 infoDc } ::
        ([pimg1].map
          (fun p => { p with constraints := aScfbC.constraints, pbc := aScfbC.pbc }) ++
          [resolveAtoms (allocImages h4bC [pimg0, pimg1]).1 aScfbC])) := by
  constructor
  · exact C4_reader_fields_frame.2.2.1 extD (some a0c) (some cnameC) (some 0)
      h0c h0c h0c a0c [] 0 cnameC infoDc cnameC params0c resC pimg0 [pimg1]
      (fun t => by simp [defaultAtoms]) (fun t => rfl) (fun t => rfl)
      (by decide) rfl (by decide) (by decide) (by decide) rfl (by decide)
      (fun l => rfl)
  · exact C4_reader_fields_frame.2.2.2 extDbulk (some a0bC) (some cnameC) (some 0)
      h0bC h0bC h0bC h4bC a0bC [] 0 cnameC infoDc cnameC params0c params1bC
      resC res1bC prBC params0c aScfbC pimg0 [pimg1]
      (fun t => by simp [defaultAtoms]) (fun t => rfl) (fun t => rfl)
      (by decide) rfl (by decide) (by decide) (by decide) (by decide) rfl rfl
      (by decide) rfl rfl rfl rfl rfl (by decide) (by decide) (fun l => rfl)

end Fwase
